import Mathlib

/-!
# rex-blog `db` package: statement builders and placeholder rebinding

A shallow embedding of `src/db/sql.go`.

Modelling conventions.

* A Go `string` is a Lean `String`.  The placeholder `?` is the single ASCII
  byte `0x3F`, which never occurs inside a multi-byte UTF-8 sequence, so the
  byte index returned by `strings.Index(query, "?")` and the position of the
  character `?` in the character list cut the text at the same place.
* `fmt.Sprintf` with `%s` verbs is string concatenation; `%d` of an `int` is
  `formatInt`; `strings.Join` is `stringsJoin`.
* A pointer the source compares with `nil` (`where`, `limit`, `offset`) and the
  slice it compares with `nil` (`order`) are `Option`s.  Pointers the source
  dereferences without a check (method receivers, `Column.Table`, the clauses
  handed to `And`) are taken to be valid.
* `interface{}` arguments are values of the sum type `Value`.
* The `for` loop of `Rebind` runs on fuel; `none` means the fuel ran out.
* Statements are first read as values (slices as lists).  The section on memory
  models the receiver of `ToSQL` as a struct whose `[]interface{}` fields are
  slice headers into backing arrays, with `append` writing in place when the
  capacity allows.
-/

namespace db

/-! ## Values -/

/-- The dynamically typed values (`interface{}`) that the package puts in an
argument list. -/
inductive Value where
  | int (v : Int)
  | str (v : String)
  | bool (v : Bool)
  | time (unixNano : Int)
  | strPtr (v : String)
  | timePtr (unixNano : Int)
  deriving DecidableEq, Repr

/-! ## Library functions used by the source -/

/-- Decimal rendering of a Go `int`, as `%d` and `strconv.AppendInt(_, _, 10)`
produce it. -/
def formatInt : Int → String
  | Int.ofNat n => Nat.repr n
  | Int.negSucc n => "-" ++ Nat.repr (n + 1)

/-- Go `strings.Join(elems, sep)`. -/
def stringsJoin : List String → String → String
  | [], _ => ""
  | [a], _ => a
  | a :: b :: rest, sep => a ++ sep ++ stringsJoin (b :: rest) sep

/-- Go `strings.Index(query, "?")` on the character list of `query`; `none`
stands for the result `-1`. -/
def indexQ : List Char → Option Nat
  | [] => none
  | c :: cs => if c = '?' then some 0 else (indexQ cs).map (· + 1)

/-! ## Rebind (sql.go 108-147) -/

def UNKNOWN : Int := 0
def QUESTION : Int := 1
def DOLLAR : Int := 2
def NAMED : Int := 3
def AT : Int := 4

/-- The bytes the inner `switch bindType` of `Rebind` appends before the
counter. -/
def bindPrefix (bindType : Int) : List Char :=
  if bindType = DOLLAR then ['$']
  else if bindType = NAMED then [':', 'a', 'r', 'g']
  else if bindType = AT then ['@', 'p']
  else []

/-- The `for` loop of `Rebind`: `rqb` is the output buffer, `j` the counter and
`query` the text still to scan.  One unit of fuel is spent per evaluation of
the loop condition. -/
def rebindLoop (bindType : Int) : Nat → List Char → Nat → List Char → Option (List Char)
  | 0, _, _, _ => none
  | fuel + 1, rqb, j, query =>
    match indexQ query with
    | none => some (rqb ++ query)
    | some i =>
      rebindLoop bindType fuel
        (rqb ++ query.take i ++ bindPrefix bindType ++ (Nat.repr (j + 1)).data)
        (j + 1) (query.drop (i + 1))

/-- Go `Rebind(bindType, query)`.  The loop is given `len(query) + 1` units of
fuel. -/
def Rebind (bindType : Int) (query : String) : Option String :=
  if bindType = QUESTION ∨ bindType = UNKNOWN then some query
  else (rebindLoop bindType (query.data.length + 1) [] 0 query.data).map String.mk

/-! ## Tables, columns and clauses (sql.go 187-316) -/

structure Table where
  Name : String
  deriving DecidableEq, Repr

structure IntColumn where
  Name : String
  Table : Table
  deriving DecidableEq, Repr

structure StringColumn where
  Name : String
  Table : Table
  deriving DecidableEq, Repr

structure Clause where
  fragment : String
  args : List Value
  deriving DecidableEq, Repr

def NewTable (name : String) : Table := { Name := name }

def Table.NewIntColumn (t : Table) (name : String) : IntColumn :=
  { Table := t, Name := name }

def Table.NewStringColumn (t : Table) (name : String) : StringColumn :=
  { Table := t, Name := name }

def IntColumn.EQ (c : IntColumn) (v : Int) : Clause :=
  { fragment := c.Table.Name ++ "." ++ c.Name ++ " = ?", args := [Value.int v] }

def StringColumn.EQ (c : StringColumn) (v : String) : Clause :=
  { fragment := c.Table.Name ++ "." ++ c.Name ++ " = ?", args := [Value.str v] }

/-- Go `And(clauses...)`: the `for ... range clauses` loop is a left fold over
the two accumulators `fragments` and `args`. -/
def And (clauses : List Clause) : Clause :=
  let r := clauses.foldl
    (fun (acc : List String × List Value) clause =>
      (acc.1 ++ ["(" ++ clause.fragment ++ ")"], acc.2 ++ clause.args))
    ([], [])
  { fragment := stringsJoin r.1 " AND ", args := r.2 }

def Or (_clauses : List Clause) : Clause :=
  { fragment := "or", args := [] }

/-! ## SelectStatement (sql.go 44-106) -/

structure SelectStatement where
  selection : List String := []
  from_ : String := ""
  where_ : Option Clause := none
  limit : Option Int := none
  offset : Option Int := none
  order : Option (List String) := none
  deriving DecidableEq, Repr

namespace SelectStatement

def Select (s : SelectStatement) (selection : List String) : SelectStatement :=
  { s with selection := selection }

def From (s : SelectStatement) (from_ : String) : SelectStatement :=
  { s with from_ := from_ }

def Where (s : SelectStatement) (expr : Option Clause) : SelectStatement :=
  { s with where_ := expr }

def Limit (s : SelectStatement) (limit : Int) : SelectStatement :=
  { s with limit := some limit }

def Offset (s : SelectStatement) (offset : Int) : SelectStatement :=
  { s with offset := some offset }

/-- Go `s.order = append(s.order, order)`: appending to the nil slice gives a
one-element slice. -/
def Order (s : SelectStatement) (order : String) : SelectStatement :=
  { s with order := some (s.order.getD [] ++ [order]) }

/-- The text and argument list `ToSQL` has built when it reaches its `return`
(lines 84-103), before the text goes through `Rebind`. -/
def build (s : SelectStatement) : String × List Value :=
  let sql := "SELECT " ++ stringsJoin s.selection ", " ++ " FROM " ++ s.from_
  let args : List Value := []
  let (sql, args) :=
    match s.where_ with
    | some w => (sql ++ " WHERE " ++ w.fragment, args ++ w.args)
    | none => (sql, args)
  let sql :=
    match s.order with
    | some order => sql ++ " ORDER BY " ++ stringsJoin order ","
    | none => sql
  let sql :=
    match s.limit with
    | some limit => sql ++ " LIMIT " ++ formatInt limit
    | none => sql
  let sql :=
    match s.offset with
    | some offset => sql ++ " OFFSET " ++ formatInt offset
    | none => sql
  (sql, args)

def ToSQL (s : SelectStatement) : Option (String × List Value) :=
  let r := s.build
  (Rebind DOLLAR r.1).map fun sql => (sql, r.2)

end SelectStatement

/-! ## InsertStatement (sql.go 149-185) -/

structure InsertStatement where
  into : String := ""
  columns : List String := []
  values : List Value := []
  returning : String := ""
  onConflict : String := ""
  deriving DecidableEq, Repr

namespace InsertStatement

def Into (s : InsertStatement) (into : String) : InsertStatement :=
  { s with into := into }

def Columns (s : InsertStatement) (columns : List String) : InsertStatement :=
  { s with columns := columns }

def Values (s : InsertStatement) (values : List Value) : InsertStatement :=
  { s with values := values }

def Returning (s : InsertStatement) (returning : String) : InsertStatement :=
  { s with returning := returning }

/-- The text and argument list of `ToSQL` (lines 178-183) before `Rebind`; the
`for range s.values` loop is a left fold. -/
def build (s : InsertStatement) : String × List Value :=
  let values := s.values.foldl (fun (values : List String) _ => values ++ ["?"]) []
  let sql := "INSERT INTO " ++ s.into ++ " (" ++ stringsJoin s.columns "," ++ ") VALUES (" ++
    stringsJoin values "," ++ ") RETURNING " ++ s.returning
  (sql, s.values)

def ToSQL (s : InsertStatement) : Option (String × List Value) :=
  let r := s.build
  (Rebind DOLLAR r.1).map fun sql => (sql, r.2)

end InsertStatement

/-! ## UpdateStatement (sql.go 318-371) -/

structure UpdateStatement where
  table : String := ""
  columns : List String := []
  values : List Value := []
  where_ : Option Clause := none
  returning : String := ""
  deriving DecidableEq, Repr

namespace UpdateStatement

def Table (s : UpdateStatement) (table : String) : UpdateStatement :=
  { s with table := table }

def Columns (s : UpdateStatement) (columns : List String) : UpdateStatement :=
  { s with columns := columns }

def Values (s : UpdateStatement) (values : List Value) : UpdateStatement :=
  { s with values := values }

def Where (s : UpdateStatement) (expr : Option Clause) : UpdateStatement :=
  { s with where_ := expr }

def Returning (s : UpdateStatement) (returning : String) : UpdateStatement :=
  { s with returning := returning }

/-- The text and argument list of `ToSQL` (lines 352-368) before `Rebind`. -/
def build (s : UpdateStatement) : String × List Value :=
  let sql := "UPDATE " ++ s.table ++ " SET"
  let args := s.values
  let sets := s.columns.foldl (fun (sets : List String) col => sets ++ [col ++ " = ?"]) []
  let sql := sql ++ " " ++ stringsJoin sets ","
  let (sql, args) :=
    match s.where_ with
    | some w => (sql ++ " WHERE " ++ w.fragment, args ++ w.args)
    | none => (sql, args)
  let sql := if s.returning ≠ "" then sql ++ " RETURNING " ++ s.returning else sql
  (sql, args)

def ToSQL (s : UpdateStatement) : Option (String × List Value) :=
  let r := s.build
  (Rebind DOLLAR r.1).map fun sql => (sql, r.2)

end UpdateStatement

/-! ## DeleteStatemnet (sql.go 373-398) -/

structure DeleteStatemnet where
  from_ : String := ""
  where_ : Option Clause := none
  deriving DecidableEq, Repr

namespace DeleteStatemnet

def From (s : DeleteStatemnet) (from_ : String) : DeleteStatemnet :=
  { s with from_ := from_ }

def Where (s : DeleteStatemnet) (expr : Option Clause) : DeleteStatemnet :=
  { s with where_ := expr }

/-- The text and argument list of `ToSQL` (lines 389-395) before `Rebind`. -/
def build (s : DeleteStatemnet) : String × List Value :=
  let sql := "DELETE FROM " ++ s.from_
  let args : List Value := []
  match s.where_ with
  | some w => (sql ++ " WHERE " ++ w.fragment, args ++ w.args)
  | none => (sql, args)

def ToSQL (s : DeleteStatemnet) : Option (String × List Value) :=
  let r := s.build
  (Rebind DOLLAR r.1).map fun sql => (sql, r.2)

end DeleteStatemnet

/-! ## Specification-side vocabulary -/

/-- Number of neutral placeholders `?` in a text. -/
def countQ (s : String) : Nat := s.data.count '?'

/-- The pieces `p0, ..., pk` of a text between its successive `?`. -/
def pieces (s : String) : List (List Char) := s.data.splitOn '?'

/-- Concatenation `p0 ++ pre(j+1) ++ p1 ++ pre(j+2) ++ ...` of a list of pieces
with numbered placeholders in between, the number written in decimal. -/
def joinNumbered (pre : List Char) : Nat → List (List Char) → List Char
  | _, [] => []
  | _, [p] => p
  | j, p :: q :: rest =>
    p ++ pre ++ (Nat.repr (j + 1)).data ++ joinNumbered pre (j + 1) (q :: rest)

/-- The text in which the `i`-th `?` of `s` is replaced by `$(j+i)`, following
the words of the specification: split at each `?`, then join with `$(j+1)`,
`$(j+2)`, ... -/
def dollarNumberedFrom (j : Nat) (s : String) : String := ⟨joinNumbered ['$'] j (pieces s)⟩

/-- The text in which the `i`-th `?` of `s` is replaced by `$i`. -/
def dollarNumbered (s : String) : String := dollarNumberedFrom 0 s

/-- The placeholder list `$(j+1),$(j+2),...,$(j+n)` as separate texts. -/
def dollars (j n : Nat) : List String := (List.range' (j + 1) n).map fun i => "$" ++ Nat.repr i

/-- The assignments `c1 = $(j+1)`, `c2 = $(j+2)`, ... of a list of columns. -/
def assignments : Nat → List String → List String
  | _, [] => []
  | j, c :: cs => (c ++ " = $" ++ Nat.repr (j + 1)) :: assignments (j + 1) cs

/-- The invariant of a clause: as many `?` in the fragment as arguments. -/
def Clause.balanced (c : Clause) : Prop := countQ c.fragment = c.args.length

instance (c : Clause) : Decidable c.balanced := by
  unfold Clause.balanced
  exact inferInstance

/-- The states a `SelectStatement` takes when it is created as the zero value
`&SelectStatement{}` and configured through its setter methods. -/
inductive SelectStatement.Reachable : SelectStatement → Prop
  | fresh : Reachable {}
  | select (s : SelectStatement) (selection : List String) :
      Reachable s → Reachable (s.Select selection)
  | from_ (s : SelectStatement) (t : String) : Reachable s → Reachable (s.From t)
  | where_ (s : SelectStatement) (expr : Option Clause) : Reachable s → Reachable (s.Where expr)
  | limit (s : SelectStatement) (n : Int) : Reachable s → Reachable (s.Limit n)
  | offset (s : SelectStatement) (n : Int) : Reachable s → Reachable (s.Offset n)
  | order (s : SelectStatement) (o : String) : Reachable s → Reachable (s.Order o)

/-- The entries of the order list; the nil slice has none. -/
def SelectStatement.orderEntries (s : SelectStatement) : List String := s.order.getD []

/-- The text ` WHERE <fragment>` of a Where clause, empty when none is set. -/
def whereText : Option Clause → String
  | some w => " WHERE " ++ w.fragment
  | none => ""

/-- The arguments of a Where clause, none when no clause is set. -/
def whereArgs : Option Clause → List Value
  | some w => w.args
  | none => []

/-- The text of a select statement in the words of the specification:
`SELECT <cols> FROM <table>`, then ` WHERE <fragment>` iff a Where clause is
set, ` ORDER BY <entries>` iff at least one Order entry exists, ` LIMIT <n>`
iff Limit was set, ` OFFSET <n>` iff Offset was set. -/
def SelectStatement.specText (s : SelectStatement) : String :=
  "SELECT " ++ stringsJoin s.selection ", " ++ " FROM " ++ s.from_
    ++ whereText s.where_
    ++ (if 1 ≤ s.orderEntries.length then " ORDER BY " ++ stringsJoin s.orderEntries "," else "")
    ++ (match s.limit with
        | some n => " LIMIT " ++ formatInt n
        | none => "")
    ++ (match s.offset with
        | some n => " OFFSET " ++ formatInt n
        | none => "")

/-- The text ` RETURNING <list>` of an update, empty when the returning string
is empty. -/
def returningText (returning : String) : String :=
  if returning ≠ "" then " RETURNING " ++ returning else ""

/-- The text of an update statement with the assignments `<col> = ?` joined by a
single comma, then the Where text, then the Returning text. -/
def UpdateStatement.specText (s : UpdateStatement) : String :=
  "UPDATE " ++ s.table ++ " SET " ++ stringsJoin (s.columns.map fun c => c ++ " = ?") ","
    ++ whereText s.where_ ++ returningText s.returning

/-- The text of an update statement as the specification writes it, with the
assignments joined by a comma followed by a space. -/
def UpdateStatement.claimedText (s : UpdateStatement) : String :=
  "UPDATE " ++ s.table ++ " SET " ++ stringsJoin (s.columns.map fun c => c ++ " = ?") ", "
    ++ whereText s.where_ ++ returningText s.returning

/-! ## The statements of the specification's examples and of the tests -/

/-- `Select("a","b").From("t").Where(col.EQ(5)).Limit(10)` with `col` the
integer column `col` of table `t`. -/
def exampleSelect : SelectStatement :=
  (((({} : SelectStatement).Select ["a", "b"]).From "t").Where
    (some (((NewTable "t").NewIntColumn "col").EQ 5))).Limit 10

/-- `Into("users").Columns("name","email").Values("a","a@x.com").Returning("id")`. -/
def exampleInsert : InsertStatement :=
  (((({} : InsertStatement).Into "users").Columns ["name", "email"]).Values
    [Value.str "a", Value.str "a@x.com"]).Returning "id"

/-- `Table("users").Columns("name").Values("demo").Where(userID.EQ(1))`, the
statement of `TestUpdateStatement`. -/
def exampleUpdate : UpdateStatement :=
  (((({} : UpdateStatement).Table "users").Columns ["name"]).Values [Value.str "demo"]).Where
    (some (((NewTable "users").NewIntColumn "id").EQ 1))

/-- `From("users").Where(userName.EQ("demo"))`, the statement of
`TestDeleteStatement`. -/
def exampleDelete : DeleteStatemnet :=
  (({} : DeleteStatemnet).From "users").Where
    (some (((NewTable "users").NewStringColumn "name").EQ "demo"))

/-- An update of two columns `a` and `b` of table `t`. -/
def exampleUpdateTwo : UpdateStatement :=
  ((({} : UpdateStatement).Table "t").Columns ["a", "b"]).Values [Value.int 1, Value.int 2]

/-- Character-level form of the same rewriting, counting on from `j`: each `?`
becomes `pre` followed by the next number, every other character is kept. -/
def numberFrom (pre : List Char) : Nat → List Char → List Char
  | _, [] => []
  | j, c :: cs =>
    if c = '?' then pre ++ (Nat.repr (j + 1)).data ++ numberFrom pre (j + 1) cs
    else c :: numberFrom pre j cs

/-! ## Memory: the receiver of `ToSQL` and the slices of `[]interface{}`

The definitions above read a statement as a value.  Here the receiver of
`ToSQL` is a struct in memory whose `[]interface{}` fields are slice headers
pointing into backing arrays, and `append` writes into spare capacity. -/

/-- A Go slice header: backing array, offset of its first element in the array,
length and capacity.  The nil slice and `[]interface{}{}` have capacity 0. -/
structure Slice where
  arr : Nat
  off : Nat
  len : Nat
  cap : Nat
  deriving DecidableEq, Repr

/-- The backing arrays in memory, by address. -/
structure Heap where
  arrays : List (List Value)
  deriving DecidableEq, Repr

/-- The cells of the backing array at an address; none beyond the heap. -/
def Heap.array (h : Heap) (a : Nat) : List Value := h.arrays.getD a []

/-- The elements of a slice. -/
def Heap.read (h : Heap) (sl : Slice) : List Value :=
  ((h.array sl.arr).drop sl.off).take sl.len

/-- A slice lies within its backing array. -/
def Slice.valid (h : Heap) (sl : Slice) : Prop :=
  sl.len ≤ sl.cap ∧ sl.off + sl.cap ≤ (h.array sl.arr).length

instance (h : Heap) (sl : Slice) : Decidable (sl.valid h) := by
  unfold Slice.valid
  exact inferInstance

/-- Go `append(sl, xs...)`: when the elements fit the capacity they are written
into the backing array after the last element of `sl`; otherwise a new array is
allocated that holds the elements of `sl` followed by `xs`.  The spare capacity
Go gives a new array is left out: nothing is appended to the result here. -/
def Heap.append (h : Heap) (sl : Slice) (xs : List Value) : Heap × Slice :=
  if sl.len + xs.length ≤ sl.cap then
    (⟨h.arrays.set sl.arr
        ((h.array sl.arr).take (sl.off + sl.len) ++ xs
          ++ (h.array sl.arr).drop (sl.off + sl.len + xs.length))⟩,
      { sl with len := sl.len + xs.length })
  else
    (⟨h.arrays ++ [h.read sl ++ xs]⟩,
      ⟨h.arrays.length, 0, sl.len + xs.length, sl.len + xs.length⟩)

/-- The slice `[]interface{}{}`. -/
def Slice.empty : Slice := ⟨0, 0, 0, 0⟩

/-- The struct a `*Clause` points to; `args` is a slice header. -/
structure ClauseFields where
  fragment : String
  args : Slice
  deriving DecidableEq, Repr

/-- The clause value held by a clause struct in a heap. -/
def ClauseFields.clause (h : Heap) (c : ClauseFields) : Clause :=
  { fragment := c.fragment, args := h.read c.args }

/-- The result of a `ToSQL` call read as values: the text and the elements of
the returned args slice in the heap after the call. -/
def readResult {α : Type} (r : Option (String × Slice) × Heap × α) :
    Option (String × List Value) :=
  r.1.map fun p => (p.1, r.2.1.read p.2)

/-- The struct a `*SelectStatement` points to. -/
structure SelectFields where
  selection : List String
  from_ : String
  where_ : Option ClauseFields
  limit : Option Int
  offset : Option Int
  order : Option (List String)
  deriving DecidableEq, Repr

/-- The statement value held by a select struct in a heap. -/
def SelectFields.statement (h : Heap) (s : SelectFields) : SelectStatement :=
  { selection := s.selection, from_ := s.from_,
    where_ := s.where_.map (ClauseFields.clause h),
    limit := s.limit, offset := s.offset, order := s.order }

/-- Go `(s *SelectStatement) ToSQL()` (lines 83-106) on the heap: the returned
pair, the heap and the receiver struct after the call. -/
def SelectFields.ToSQL (h : Heap) (s : SelectFields) :
    Option (String × Slice) × Heap × SelectFields :=
  let sql := "SELECT " ++ stringsJoin s.selection ", " ++ " FROM " ++ s.from_
  let args := Slice.empty
  let (sql, h, args) :=
    match s.where_ with
    | some w =>
      let r := h.append args (h.read w.args)
      (sql ++ " WHERE " ++ w.fragment, r.1, r.2)
    | none => (sql, h, args)
  let sql :=
    match s.order with
    | some order => sql ++ " ORDER BY " ++ stringsJoin order ","
    | none => sql
  let sql :=
    match s.limit with
    | some limit => sql ++ " LIMIT " ++ formatInt limit
    | none => sql
  let sql :=
    match s.offset with
    | some offset => sql ++ " OFFSET " ++ formatInt offset
    | none => sql
  ((Rebind DOLLAR sql).map fun q => (q, args), h, s)

/-- The struct an `*InsertStatement` points to. -/
structure InsertFields where
  into : String
  columns : List String
  values : Slice
  returning : String
  onConflict : String
  deriving DecidableEq, Repr

/-- The statement value held by an insert struct in a heap. -/
def InsertFields.statement (h : Heap) (s : InsertFields) : InsertStatement :=
  { into := s.into, columns := s.columns, values := h.read s.values,
    returning := s.returning, onConflict := s.onConflict }

/-- Go `(s *InsertStatement) ToSQL()` (lines 177-185) on the heap; the loop
`for range s.values` runs `len(s.values)` times. -/
def InsertFields.ToSQL (h : Heap) (s : InsertFields) :
    Option (String × Slice) × Heap × InsertFields :=
  let values := (List.range s.values.len).foldl (fun (values : List String) _ => values ++ ["?"]) []
  let sql := "INSERT INTO " ++ s.into ++ " (" ++ stringsJoin s.columns "," ++ ") VALUES (" ++
    stringsJoin values "," ++ ") RETURNING " ++ s.returning
  ((Rebind DOLLAR sql).map fun q => (q, s.values), h, s)

/-- The struct an `*UpdateStatement` points to. -/
structure UpdateFields where
  table : String
  columns : List String
  values : Slice
  where_ : Option ClauseFields
  returning : String
  deriving DecidableEq, Repr

/-- The statement value held by an update struct in a heap. -/
def UpdateFields.statement (h : Heap) (s : UpdateFields) : UpdateStatement :=
  { table := s.table, columns := s.columns, values := h.read s.values,
    where_ := s.where_.map (ClauseFields.clause h), returning := s.returning }

/-- Go `(s *UpdateStatement) ToSQL()` (lines 351-371) on the heap: `args` starts
as the slice header `s.values` itself and `append` extends it, in place when
`s.values` has spare capacity. -/
def UpdateFields.ToSQL (h : Heap) (s : UpdateFields) :
    Option (String × Slice) × Heap × UpdateFields :=
  let sql := "UPDATE " ++ s.table ++ " SET"
  let args := s.values
  let sets := s.columns.foldl (fun (sets : List String) col => sets ++ [col ++ " = ?"]) []
  let sql := sql ++ " " ++ stringsJoin sets ","
  let (sql, h, args) :=
    match s.where_ with
    | some w =>
      let r := h.append args (h.read w.args)
      (sql ++ " WHERE " ++ w.fragment, r.1, r.2)
    | none => (sql, h, args)
  let sql := if s.returning ≠ "" then sql ++ " RETURNING " ++ s.returning else sql
  ((Rebind DOLLAR sql).map fun q => (q, args), h, s)

/-- The struct a `*DeleteStatemnet` points to. -/
structure DeleteFields where
  from_ : String
  where_ : Option ClauseFields
  deriving DecidableEq, Repr

/-- The statement value held by a delete struct in a heap. -/
def DeleteFields.statement (h : Heap) (s : DeleteFields) : DeleteStatemnet :=
  { from_ := s.from_, where_ := s.where_.map (ClauseFields.clause h) }

/-- Go `(s *DeleteStatemnet) ToSQL()` (lines 388-398) on the heap. -/
def DeleteFields.ToSQL (h : Heap) (s : DeleteFields) :
    Option (String × Slice) × Heap × DeleteFields :=
  let sql := "DELETE FROM " ++ s.from_
  let args := Slice.empty
  let (sql, h, args) :=
    match s.where_ with
    | some w =>
      let r := h.append args (h.read w.args)
      (sql ++ " WHERE " ++ w.fragment, r.1, r.2)
    | none => (sql, h, args)
  ((Rebind DOLLAR sql).map fun q => (q, args), h, s)

/-- The effect on memory of the statement `args = append(args, s.where.args...)`
under the test `s.where != nil`, common to the select, update and delete. -/
def whereAppend (h : Heap) (args : Slice) : Option ClauseFields → Heap × Slice
  | some w => h.append args (h.read w.args)
  | none => (h, args)

/-- Two calls in a row on the unmodified receiver: the second call runs on the
memory and the receiver struct that the first call left. -/
def secondCall {α : Type} (f : Heap → α → Option (String × Slice) × Heap × α)
    (h : Heap) (s : α) : Option (String × Slice) × Heap × α :=
  f (f h s).2.1 (f h s).2.2

/-- The slices of a select struct lie within their backing arrays. -/
def SelectFields.wellFormed (h : Heap) (s : SelectFields) : Prop :=
  ∀ w ∈ s.where_, w.args.valid h

/-- The slices of an insert struct lie within their backing arrays. -/
def InsertFields.wellFormed (h : Heap) (s : InsertFields) : Prop :=
  s.values.valid h

/-- The slices of an update struct lie within their backing arrays, and no cell
of the clause args is a spare cell of `values`: the clause args are in another
array, or before the end of `values`, or `values` has no spare capacity.  The
package allocates the args array of every clause itself (`EQ`, `And`, `Or`) and
hands it to no caller, so the array behind `Values(...)` is never that array. -/
def UpdateFields.wellFormed (h : Heap) (s : UpdateFields) : Prop :=
  s.values.valid h
    ∧ ∀ w ∈ s.where_, w.args.valid h
        ∧ (w.args.arr ≠ s.values.arr
          ∨ w.args.off + w.args.len ≤ s.values.off + s.values.len
          ∨ s.values.len = s.values.cap)

/-- The slices of a delete struct lie within their backing arrays. -/
def DeleteFields.wellFormed (h : Heap) (s : DeleteFields) : Prop :=
  ∀ w ∈ s.where_, w.args.valid h

instance (h : Heap) (s : SelectFields) : Decidable (s.wellFormed h) := by
  unfold SelectFields.wellFormed
  exact inferInstance

instance (h : Heap) (s : InsertFields) : Decidable (s.wellFormed h) := by
  unfold InsertFields.wellFormed
  exact inferInstance

instance (h : Heap) (s : UpdateFields) : Decidable (s.wellFormed h) := by
  unfold UpdateFields.wellFormed
  exact inferInstance

instance (h : Heap) (s : DeleteFields) : Decidable (s.wellFormed h) := by
  unfold DeleteFields.wellFormed
  exact inferInstance

/-- A heap with two backing arrays: one of three cells whose first holds
`"demo"`, and the one-cell args array of a clause. -/
def exampleHeap : Heap :=
  ⟨[[Value.str "demo", Value.int 0, Value.int 0], [Value.int 1]]⟩

/-- The update of `TestUpdateStatement` in memory, with `values` a slice of
length 1 and capacity 3 of the first array of `exampleHeap`. -/
def exampleUpdateFields : UpdateFields :=
  { table := "users", columns := ["name"], values := ⟨0, 0, 1, 3⟩,
    where_ := some { fragment := "users.id = ?", args := ⟨1, 0, 1, 1⟩ }, returning := "" }

/-- A select in memory whose clause args are the second array of `exampleHeap`. -/
def exampleSelectFields : SelectFields :=
  { selection := ["a", "b"], from_ := "users",
    where_ := some { fragment := "users.id = ?", args := ⟨1, 0, 1, 1⟩ },
    limit := some 10, offset := none, order := none }

/-- An insert in memory whose values are the first cell of `exampleHeap`. -/
def exampleInsertFields : InsertFields :=
  { into := "users", columns := ["name"], values := ⟨0, 0, 1, 3⟩, returning := "id",
    onConflict := "" }

/-- A delete in memory whose clause args are the second array of `exampleHeap`. -/
def exampleDeleteFields : DeleteFields :=
  { from_ := "users", where_ := some { fragment := "users.id = ?", args := ⟨1, 0, 1, 1⟩ } }

/-- A heap with a single array of four cells. -/
def aliasedHeap : Heap :=
  ⟨[[Value.str "demo", Value.int 7, Value.int 8, Value.int 9]]⟩

/-- An update struct whose `values` is the first cell of that array with
capacity 4, and whose clause args are its last two cells: the clause args lie in
the spare capacity of `values`.  No call of the package builds such a struct. -/
def aliasedUpdateFields : UpdateFields :=
  { table := "users", columns := ["name"], values := ⟨0, 0, 1, 4⟩,
    where_ := some { fragment := "a = ? AND b = ?", args := ⟨0, 2, 2, 2⟩ }, returning := "" }

/-- One setter call on a `SelectStatement`, with its argument. -/
inductive SelectStatement.Setter where
  | select (selection : List String)
  | from_ (t : String)
  | where_ (expr : Option Clause)
  | order (o : String)
  | limit (n : Int)
  | offset (n : Int)
  deriving DecidableEq, Repr

/-- The effect of a setter call on the builder. -/
def SelectStatement.Setter.apply : SelectStatement.Setter → SelectStatement → SelectStatement
  | .select selection, s => s.Select selection
  | .from_ t, s => s.From t
  | .where_ expr, s => s.Where expr
  | .order o, s => s.Order o
  | .limit n, s => s.Limit n
  | .offset n, s => s.Offset n

/-- The field a setter assigns, numbered in the order of the struct
declaration: selection, from, where, limit, offset, order. -/
def SelectStatement.Setter.field : SelectStatement.Setter → Nat
  | .select _ => 0
  | .from_ _ => 1
  | .where_ _ => 2
  | .limit _ => 3
  | .offset _ => 4
  | .order _ => 5

/-! ## The post client (post.go) -/

/-- The global `TablePost`, set by `init` (post.go 18). -/
def TablePost : Table := NewTable "posts"

/-- The global `ColumnPostID`, set by `init` (post.go 19). -/
def ColumnPostID : IntColumn := TablePost.NewIntColumn "id"

/-- The part of `PostQuery` that decides the rendered statement; the context
and the client are handed to the connection and are not modelled. -/
structure PostQuery where
  selectStatement : SelectStatement
  deriving DecidableEq, Repr

/-- Go `PostClient.QueryContext` (post.go 71-81). -/
def PostClient.QueryContext : PostQuery :=
  { selectStatement := ((({} : SelectStatement).Select ["posts.*"]).From "posts") }

/-- Go `PostQuery.Where` (post.go 183-186). -/
def PostQuery.Where (q : PostQuery) (expr : Option Clause) : PostQuery :=
  { q with selectStatement := q.selectStatement.Where expr }

/-- Go `PostQuery.Limit` (post.go 192-195). -/
def PostQuery.Limit (q : PostQuery) (limit : Int) : PostQuery :=
  { q with selectStatement := q.selectStatement.Limit limit }

/-- The statement `PostQuery.First` renders: `q.Limit(1)`, then `q.All()` calls
`q.selectStatement.ToSQL()` (post.go 266-269 and 202-203). -/
def PostQuery.firstSQL (q : PostQuery) : Option (String × List Value) :=
  (q.Limit 1).selectStatement.ToSQL

/-- The statement `PostClient.FindContext(ctx, id)` renders (post.go 281-284). -/
def PostClient.findSQL (id : Int) : Option (String × List Value) :=
  (PostClient.QueryContext.Where (some (ColumnPostID.EQ id))).firstSQL

/-- Go `PostUpdateInput` (post.go 52-58); a nil pointer is `none`, times are
instants in nanoseconds. -/
structure PostUpdateInput where
  ID : Int
  Title : Option String := none
  Content : Option String := none
  CreatedAt : Option Int := none
  UpdatedAt : Option Int := none
  deriving DecidableEq, Repr

/-- The `columns` and `values` that `PostClient.UpdateContext` collects
(post.go 291-309); `now` is the instant `time.Now()` returns. -/
def PostClient.updateColumnsValues (now : Int) (input : PostUpdateInput) :
    List String × List Value :=
  let columns : List String := []
  let values : List Value := []
  let (columns, values) :=
    match input.Title with
    | some title => (columns ++ ["title"], values ++ [Value.strPtr title])
    | none => (columns, values)
  let (columns, values) :=
    match input.Content with
    | some content => (columns ++ ["content"], values ++ [Value.strPtr content])
    | none => (columns, values)
  let columns := columns ++ ["updated_at"]
  let values :=
    match input.UpdatedAt with
    | none => values ++ [Value.time now]
    | some updatedAt => values ++ [Value.timePtr updatedAt]
  (columns, values)

/-- The `UpdateStatement` that `PostClient.UpdateContext` builds (post.go
311-315). -/
def PostClient.updateStatement (now : Int) (input : PostUpdateInput) : UpdateStatement :=
  let cv := PostClient.updateColumnsValues now input
  ((((({} : UpdateStatement).Table "posts").Columns cv.1).Values cv.2).Where
    (some (ColumnPostID.EQ input.ID))).Returning "id,title,content,created_at,updated_at"

/-- The rendered statement of `PostClient.UpdateContext` (post.go 316). -/
def PostClient.updateSQL (now : Int) (input : PostUpdateInput) : Option (String × List Value) :=
  (PostClient.updateStatement now input).ToSQL

/-! ## Laid-out statements: literal text and argument slots -/

/-- One piece of a parameterised statement: literal text, or the slot in which
the placeholder of one argument value stands. -/
inductive Piece where
  | text (t : String)
  | slot (v : Value)
  deriving DecidableEq, Repr

/-- The text of a layout with every slot written as the neutral `?`. -/
def rawText : List Piece → String
  | [] => ""
  | .text t :: ps => t ++ rawText ps
  | .slot _ :: ps => "?" ++ rawText ps

/-- The text of a layout with its `i`-th slot written `$(j+i)`. -/
def numberedText : Nat → List Piece → String
  | _, [] => ""
  | j, .text t :: ps => t ++ numberedText j ps
  | j, .slot _ :: ps => "$" ++ Nat.repr (j + 1) ++ numberedText (j + 1) ps

/-- The values of the slots of a layout in text order: entry `i-1` is the value
whose placeholder `numberedText 0` writes as `$i`. -/
def slotValues : List Piece → List Value
  | [] => []
  | .text _ :: ps => slotValues ps
  | .slot v :: ps => v :: slotValues ps

/-- No literal text of the layout contains `?`: its placeholders are its slots. -/
def cleanTexts (ps : List Piece) : Prop := ∀ t, Piece.text t ∈ ps → countQ t = 0

/-- The pieces of a fragment with, at each cut, the slot of the argument of the
same rank: `p0, slot a1, p1, slot a2, ..., pk`. -/
def weave : List (List Char) → List Value → List Piece
  | [], _ => []
  | [p], _ => [Piece.text ⟨p⟩]
  | p :: _ :: _, [] => [Piece.text ⟨p⟩]
  | p :: q :: rest, a :: as => Piece.text ⟨p⟩ :: Piece.slot a :: weave (q :: rest) as

/-- The layout of a clause: the `i`-th `?` of its fragment is the slot of its
`i`-th argument. -/
def Clause.layout (c : Clause) : List Piece := weave (pieces c.fragment) c.args

/-- The layout of the Where part of a statement. -/
def whereLayout : Option Clause → List Piece
  | some w => Piece.text " WHERE " :: w.layout
  | none => []

/-- The values of an insert, each in its own slot, separated by commas. -/
def valueSlots : List Value → List Piece
  | [] => []
  | [v] => [Piece.slot v]
  | v :: w :: rest => Piece.slot v :: Piece.text "," :: valueSlots (w :: rest)

/-- The assignments of an update: column `i` is assigned the slot of value `i`
(Values are positionally aligned with Columns). -/
def assignmentSlots : List String → List Value → List Piece
  | [], _ => []
  | _ :: _, [] => []
  | [c], v :: _ => [Piece.text (c ++ " = "), Piece.slot v]
  | c :: d :: cs, v :: vs =>
    Piece.text (c ++ " = ") :: Piece.slot v :: Piece.text "," :: assignmentSlots (d :: cs) vs

/-- The text a select statement has after its Where part. -/
def SelectStatement.tailText (s : SelectStatement) : String :=
  (match s.order with
    | some order => " ORDER BY " ++ stringsJoin order ","
    | none => "")
  ++ (match s.limit with
      | some n => " LIMIT " ++ formatInt n
      | none => "")
  ++ (match s.offset with
      | some n => " OFFSET " ++ formatInt n
      | none => "")

/-- The layout of a select statement: its only slots are those of the Where
clause. -/
def SelectStatement.layout (s : SelectStatement) : List Piece :=
  Piece.text ("SELECT " ++ stringsJoin s.selection ", " ++ " FROM " ++ s.from_)
    :: (whereLayout s.where_ ++ [Piece.text s.tailText])

/-- The layout of an insert statement: one slot per value in the `VALUES` list. -/
def InsertStatement.layout (s : InsertStatement) : List Piece :=
  Piece.text ("INSERT INTO " ++ s.into ++ " (" ++ stringsJoin s.columns "," ++ ") VALUES (")
    :: (valueSlots s.values ++ [Piece.text (") RETURNING " ++ s.returning)])

/-- The layout of an update statement: the slots of the assigned values, then
those of the Where clause. -/
def UpdateStatement.layout (s : UpdateStatement) : List Piece :=
  Piece.text ("UPDATE " ++ s.table ++ " SET ")
    :: (assignmentSlots s.columns s.values ++ whereLayout s.where_
        ++ [Piece.text (returningText s.returning)])

/-- The layout of a delete statement. -/
def DeleteStatemnet.layout (s : DeleteStatemnet) : List Piece :=
  Piece.text ("DELETE FROM " ++ s.from_) :: whereLayout s.where_

/-! ## Lemmas: `strings.Index` and decimal digits -/

theorem indexQ_eq_none {q : List Char} : indexQ q = none ↔ '?' ∉ q := by
  induction q with
  | nil => simp [indexQ]
  | cons c cs ih =>
    by_cases hc : c = '?'
    · simp [indexQ, hc]
    · have hc2 : ¬ ('?' = c) := fun h => hc h.symm
      simp [indexQ, hc, hc2, ih]

theorem indexQ_eq_some {q : List Char} {i : Nat} (h : indexQ q = some i) :
    ∃ p r, q = p ++ '?' :: r ∧ '?' ∉ p ∧ q.take i = p ∧ q.drop (i + 1) = r := by
  induction q generalizing i with
  | nil => simp [indexQ] at h
  | cons c cs ih =>
    by_cases hc : c = '?'
    · simp [indexQ, hc] at h
      subst h
      exact ⟨[], cs, by simp [hc], by simp, by simp, by simp⟩
    · simp only [indexQ, hc, if_false, Option.map_eq_some'] at h
      obtain ⟨k, hk, rfl⟩ := h
      obtain ⟨p, r, hq, hp, ht, hd⟩ := ih hk
      refine ⟨c :: p, r, by simp [hq], ?_, by simp [ht], by simpa using hd⟩
      have hc2 : ¬ ('?' = c) := fun h => hc h.symm
      simp [hc2, hp]

theorem digitChar_ne_question (n : Nat) : Nat.digitChar (n % 10) ≠ '?' := by
  have h : n % 10 < 10 := Nat.mod_lt _ (by decide)
  generalize n % 10 = d at h
  interval_cases d <;> decide

theorem toDigitsCore_no_question (fuel n : Nat) (ds : List Char) (hds : '?' ∉ ds) :
    '?' ∉ Nat.toDigitsCore 10 fuel n ds := by
  induction fuel generalizing n ds with
  | zero => simpa [Nat.toDigitsCore] using hds
  | succ fuel ih =>
    have hcons : '?' ∉ Nat.digitChar (n % 10) :: ds := by
      simp only [List.mem_cons, not_or]
      exact ⟨fun h => digitChar_ne_question _ h.symm, hds⟩
    simp only [Nat.toDigitsCore]
    split_ifs
    · exact hcons
    · exact ih _ _ hcons

theorem repr_no_question (n : Nat) : '?' ∉ (Nat.repr n).data := by
  simp only [Nat.repr, Nat.toDigits, List.asString]
  exact toDigitsCore_no_question _ _ _ (by simp)

theorem formatInt_no_question (i : Int) : '?' ∉ (formatInt i).data := by
  cases i with
  | ofNat n => exact repr_no_question n
  | negSucc n =>
    simp only [formatInt, String.data_append, List.mem_append, not_or]
    exact ⟨by decide, repr_no_question _⟩

/-! ## Lemmas: numbering placeholders -/

theorem numberFrom_of_not_mem (pre : List Char) (j : Nat) {q : List Char} (h : '?' ∉ q) :
    numberFrom pre j q = q := by
  induction q with
  | nil => rfl
  | cons c cs ih =>
    simp only [List.mem_cons, not_or] at h
    have hc : ¬ (c = '?') := fun e => h.1 e.symm
    simp [numberFrom, hc, ih h.2]

theorem numberFrom_append (pre : List Char) (j : Nat) (a b : List Char) :
    numberFrom pre j (a ++ b) = numberFrom pre j a ++ numberFrom pre (j + a.count '?') b := by
  induction a generalizing j with
  | nil => simp [numberFrom]
  | cons c cs ih =>
    by_cases hc : c = '?'
    · subst hc
      simp [numberFrom, ih, Nat.add_assoc, Nat.add_comm 1]
    · have hc2 : ¬ ((c == '?') = true) := by simpa using hc
      simp [numberFrom, hc, ih, List.count_cons, hc2]

theorem numberFrom_question (pre : List Char) (j : Nat) (r : List Char) :
    numberFrom pre j ('?' :: r) = pre ++ (Nat.repr (j + 1)).data ++ numberFrom pre (j + 1) r := by
  simp [numberFrom]

theorem numberFrom_no_question (pre : List Char) (hpre : '?' ∉ pre) (j : Nat) (q : List Char) :
    '?' ∉ numberFrom pre j q := by
  induction q generalizing j with
  | nil => simp [numberFrom]
  | cons c cs ih =>
    by_cases hc : c = '?'
    · simp only [numberFrom, hc, if_true, List.mem_append, not_or]
      exact ⟨⟨hpre, repr_no_question _⟩, ih _⟩
    · have hc2 : ¬ ('?' = c) := fun h => hc h.symm
      simp only [numberFrom, hc, if_false, List.mem_cons, not_or]
      exact ⟨hc2, ih _⟩

theorem rebindLoop_eq (bindType : Int) (fuel : Nat) (rqb : List Char) (j : Nat)
    (query : List Char) (hfuel : query.length < fuel) :
    rebindLoop bindType fuel rqb j query
      = some (rqb ++ numberFrom (bindPrefix bindType) j query) := by
  induction fuel generalizing rqb j query with
  | zero => omega
  | succ fuel ih =>
    unfold rebindLoop
    cases h : indexQ query with
    | none =>
      simp only
      rw [numberFrom_of_not_mem _ _ (indexQ_eq_none.mp h)]
    | some i =>
      obtain ⟨p, r, hq, hp, ht, hd⟩ := indexQ_eq_some h
      simp only
      rw [ht, hd, ih _ _ _ (by rw [hq] at hfuel; simp at hfuel; omega)]
      subst hq
      rw [numberFrom_append, numberFrom_of_not_mem _ _ hp, numberFrom_question,
        List.count_eq_zero_of_not_mem hp]
      simp [List.append_assoc]

/-- On every bind type other than `QUESTION` and `UNKNOWN`, `Rebind` returns,
and what it returns is the character-level rewriting of the query. -/
theorem Rebind_eq_numberFrom (bindType : Int) (query : String)
    (hb : ¬ (bindType = QUESTION ∨ bindType = UNKNOWN)) :
    Rebind bindType query = some ⟨numberFrom (bindPrefix bindType) 0 query.data⟩ := by
  simp only [Rebind, hb, if_false]
  rw [rebindLoop_eq _ _ _ _ _ (Nat.lt_succ_self _)]
  simp

theorem joinNumbered_cons_cons (pre : List Char) (j : Nat) (c : Char) (l : List Char)
    (rest : List (List Char)) :
    joinNumbered pre j ((c :: l) :: rest) = c :: joinNumbered pre j (l :: rest) := by
  cases rest <;> simp [joinNumbered]

theorem joinNumbered_nil_cons (pre : List Char) (j : Nat) (L : List (List Char)) (hL : L ≠ []) :
    joinNumbered pre j ([] :: L)
      = pre ++ (Nat.repr (j + 1)).data ++ joinNumbered pre (j + 1) L := by
  cases L with
  | nil => exact absurd rfl hL
  | cons a rest => simp [joinNumbered]

theorem joinNumbered_splitOn (pre : List Char) (j : Nat) (q : List Char) :
    joinNumbered pre j (q.splitOn '?') = numberFrom pre j q := by
  induction q generalizing j with
  | nil => simp [List.splitOn, List.splitOnP_nil, joinNumbered, numberFrom]
  | cons c cs ih =>
    have hne : cs.splitOn '?' ≠ [] := List.splitOnP_ne_nil _ _
    simp only [List.splitOn] at ih hne ⊢
    rw [List.splitOnP_cons]
    by_cases hc : c = '?'
    · subst hc
      simp only [beq_self_eq_true, if_true]
      rw [joinNumbered_nil_cons _ _ _ hne, ih, numberFrom_question]
    · have hc2 : (c == '?') = false := by simpa using hc
      simp only [hc2, Bool.false_eq_true, numberFrom, hc, if_false]
      cases hL : List.splitOnP (fun x => x == '?') cs with
      | nil => exact absurd hL hne
      | cons l rest =>
        rw [List.modifyHead_cons, joinNumbered_cons_cons, ← hL, ih]

theorem length_splitOn (q : List Char) : (q.splitOn '?').length = q.count '?' + 1 := by
  induction q with
  | nil => simp [List.splitOn, List.splitOnP_nil]
  | cons c cs ih =>
    have hne : cs.splitOn '?' ≠ [] := List.splitOnP_ne_nil _ _
    simp only [List.splitOn] at ih hne ⊢
    rw [List.splitOnP_cons]
    by_cases hc : c = '?'
    · subst hc
      simp [ih]
    · have hc2 : (c == '?') = false := by simpa using hc
      cases hL : List.splitOnP (fun x => x == '?') cs with
      | nil => exact absurd hL hne
      | cons l rest =>
        rw [hL] at ih
        simp [hc2, List.count_cons, ← ih]

theorem splitOn_no_question (q : List Char) : ∀ p ∈ q.splitOn '?', '?' ∉ p := by
  induction q with
  | nil => simp [List.splitOn, List.splitOnP_nil]
  | cons c cs ih =>
    have hne : cs.splitOn '?' ≠ [] := List.splitOnP_ne_nil _ _
    simp only [List.splitOn] at ih hne ⊢
    rw [List.splitOnP_cons]
    by_cases hc : c = '?'
    · subst hc
      simpa using ih
    · have hc2 : (c == '?') = false := by simpa using hc
      have hc3 : ¬ ('?' = c) := fun h => hc h.symm
      cases hL : List.splitOnP (fun x => x == '?') cs with
      | nil => exact absurd hL hne
      | cons l rest =>
        rw [hL] at ih
        simp only [hc2, List.modifyHead_cons]
        intro p hp
        simp only [Bool.false_eq_true, if_false, List.mem_cons] at hp
        rcases hp with rfl | hp
        · simp only [List.mem_cons, not_or]
          exact ⟨hc3, ih l (by simp)⟩
        · exact ih p (by simp [hp])

/-- The source's `Rebind(DOLLAR, _)` returns the split-and-join rewriting of the
specification. -/
theorem Rebind_DOLLAR_eq (query : String) :
    Rebind DOLLAR query = some (dollarNumbered query) := by
  rw [Rebind_eq_numberFrom DOLLAR query (by decide)]
  simp [dollarNumbered, dollarNumberedFrom, pieces, joinNumbered_splitOn, bindPrefix]

/-! ## Lemmas: counting placeholders in built texts -/

theorem countQ_append (a b : String) : countQ (a ++ b) = countQ a + countQ b := by
  simp [countQ]

theorem countQ_stringsJoin (l : List String) (sep : String) :
    countQ (stringsJoin l sep) = (l.map countQ).sum + (l.length - 1) * countQ sep := by
  induction l with
  | nil => simp [stringsJoin, countQ]
  | cons a rest ih =>
    cases rest with
    | nil => simp [stringsJoin]
    | cons b rest =>
      simp only [stringsJoin, countQ_append, ih, List.map_cons, List.sum_cons, List.length_cons,
        Nat.add_sub_cancel]
      ring

theorem countQ_stringsJoin_zero (l : List String) (sep : String)
    (hl : ∀ x ∈ l, countQ x = 0) (hsep : countQ sep = 0) : countQ (stringsJoin l sep) = 0 := by
  rw [countQ_stringsJoin, hsep, Nat.mul_zero, Nat.add_zero]
  apply List.sum_eq_zero
  intro n hn
  obtain ⟨x, hx, rfl⟩ := List.mem_map.mp hn
  exact hl x hx

theorem countQ_formatInt (i : Int) : countQ (formatInt i) = 0 :=
  List.count_eq_zero_of_not_mem (formatInt_no_question i)

theorem foldl_append_singleton {α β : Type} (f : α → β) (l : List α) (init : List β) :
    l.foldl (fun acc x => acc ++ [f x]) init = init ++ l.map f := by
  induction l generalizing init with
  | nil => simp
  | cons a rest ih => simp [ih]

theorem sum_map_const_one {α : Type} (l : List α) (f : α → Nat) (hf : ∀ x ∈ l, f x = 1) :
    (l.map f).sum = l.length := by
  induction l with
  | nil => simp
  | cons a rest ih =>
    simp only [List.map_cons, List.sum_cons, List.length_cons]
    rw [hf a (by simp), ih (fun x hx => hf x (by simp [hx]))]
    omega

/-- The `VALUES` list of an insert: one `?` per value, joined by commas. -/
theorem countQ_insert_values (values : List Value) :
    countQ (stringsJoin (values.foldl (fun (acc : List String) _ => acc ++ ["?"]) []) ",")
      = values.length := by
  rw [foldl_append_singleton (fun _ => "?") values [], countQ_stringsJoin]
  have h0 : countQ "," = 0 := by decide
  simp only [List.nil_append, List.map_map, h0, Nat.mul_zero, Nat.add_zero]
  apply sum_map_const_one
  intro v _
  simp [countQ]

/-- The `SET` list of an update: one `?` per column whose name has none. -/
theorem countQ_update_sets (columns : List String) (hc : ∀ c ∈ columns, countQ c = 0) :
    countQ (stringsJoin (columns.foldl (fun (acc : List String) col => acc ++ [col ++ " = ?"]) [])
      ",") = columns.length := by
  rw [foldl_append_singleton (fun col => col ++ " = ?") columns [], countQ_stringsJoin]
  have h0 : countQ "," = 0 := by decide
  simp only [List.nil_append, List.map_map, h0, Nat.mul_zero, Nat.add_zero]
  apply sum_map_const_one
  intro c hcm
  have h1 : countQ " = ?" = 1 := by decide
  simp [countQ_append, hc c hcm, h1]

theorem dollarNumbered_no_question (s : String) : countQ (dollarNumbered s) = 0 := by
  apply List.count_eq_zero_of_not_mem
  simp only [dollarNumbered, dollarNumberedFrom, pieces, joinNumbered_splitOn]
  exact numberFrom_no_question _ (by decide) _ _

theorem SelectStatement.select_ToSQL_eq (s : SelectStatement) :
    s.ToSQL = some (dollarNumbered s.build.1, s.build.2) := by
  simp [SelectStatement.ToSQL, Rebind_DOLLAR_eq]

theorem InsertStatement.insert_ToSQL_eq (s : InsertStatement) :
    s.ToSQL = some (dollarNumbered s.build.1, s.build.2) := by
  simp [InsertStatement.ToSQL, Rebind_DOLLAR_eq]

theorem UpdateStatement.update_ToSQL_eq (s : UpdateStatement) :
    s.ToSQL = some (dollarNumbered s.build.1, s.build.2) := by
  simp [UpdateStatement.ToSQL, Rebind_DOLLAR_eq]

theorem DeleteStatemnet.delete_ToSQL_eq (s : DeleteStatemnet) :
    s.ToSQL = some (dollarNumbered s.build.1, s.build.2) := by
  simp [DeleteStatemnet.ToSQL, Rebind_DOLLAR_eq]

theorem SelectStatement.select_countQ_build (s : SelectStatement)
    (hsel : ∀ x ∈ s.selection, countQ x = 0) (hfrom : countQ s.from_ = 0)
    (hord : ∀ order ∈ s.order, ∀ o ∈ order, countQ o = 0)
    (hw : ∀ w ∈ s.where_, countQ w.fragment = w.args.length) :
    countQ s.build.1 = s.build.2.length := by
  simp only [Option.mem_def] at hord hw
  have hjoin := countQ_stringsJoin_zero s.selection ", " hsel (by decide)
  have hord2 : ∀ order, s.order = some order → countQ (stringsJoin order ",") = 0 :=
    fun order ho => countQ_stringsJoin_zero order "," (hord order ho) (by decide)
  have e1 : countQ "SELECT " = 0 := by decide
  have e2 : countQ " FROM " = 0 := by decide
  have e3 : countQ " WHERE " = 0 := by decide
  have e4 : countQ " ORDER BY " = 0 := by decide
  have e5 : countQ " LIMIT " = 0 := by decide
  have e6 : countQ " OFFSET " = 0 := by decide
  obtain ⟨selection, from_, where_, limit, offset, order⟩ := s
  simp only at hjoin hfrom hord2 hw
  cases where_ <;> cases order <;> cases limit <;> cases offset <;>
    simp [SelectStatement.build, countQ_append, countQ_formatInt, hjoin, hfrom, hord2, hw,
      e1, e2, e3, e4, e5, e6]

theorem InsertStatement.insert_countQ_build (s : InsertStatement)
    (hinto : countQ s.into = 0) (hcols : ∀ c ∈ s.columns, countQ c = 0)
    (hret : countQ s.returning = 0) :
    countQ s.build.1 = s.build.2.length := by
  have hjoin := countQ_stringsJoin_zero s.columns "," hcols (by decide)
  have hvals := countQ_insert_values s.values
  have e1 : countQ "INSERT INTO " = 0 := by decide
  have e2 : countQ " (" = 0 := by decide
  have e3 : countQ ") VALUES (" = 0 := by decide
  have e4 : countQ ") RETURNING " = 0 := by decide
  simp only [InsertStatement.build, countQ_append, hinto, hjoin, hvals, hret, e1, e2, e3, e4]
  omega

theorem UpdateStatement.update_countQ_build (s : UpdateStatement)
    (htable : countQ s.table = 0) (hcols : ∀ c ∈ s.columns, countQ c = 0)
    (hret : countQ s.returning = 0)
    (hw : ∀ w ∈ s.where_, countQ w.fragment = w.args.length)
    (hlen : s.columns.length = s.values.length) :
    countQ s.build.1 = s.build.2.length := by
  simp only [Option.mem_def] at hw
  have hsets := countQ_update_sets s.columns hcols
  have e1 : countQ "UPDATE " = 0 := by decide
  have e2 : countQ " SET" = 0 := by decide
  have e3 : countQ " " = 0 := by decide
  have e4 : countQ " WHERE " = 0 := by decide
  have e5 : countQ " RETURNING " = 0 := by decide
  obtain ⟨table, columns, values, where_, returning⟩ := s
  simp only at htable hret hw hlen hsets
  cases where_ <;> by_cases hr : returning = "" <;>
    simp [UpdateStatement.build, countQ_append, htable, hsets, hret, hw, hlen, hr,
      e1, e2, e3, e4, e5]

theorem DeleteStatemnet.delete_countQ_build (s : DeleteStatemnet)
    (hfrom : countQ s.from_ = 0)
    (hw : ∀ w ∈ s.where_, countQ w.fragment = w.args.length) :
    countQ s.build.1 = s.build.2.length := by
  simp only [Option.mem_def] at hw
  have e1 : countQ "DELETE FROM " = 0 := by decide
  have e2 : countQ " WHERE " = 0 := by decide
  obtain ⟨from_, where_⟩ := s
  simp only at hfrom hw
  cases where_ <;> simp [DeleteStatemnet.build, countQ_append, hfrom, hw, e1, e2]

/-! ## Lemmas: the select statement -/

/-- A builder configured through its setters never holds an empty non-nil
order slice. -/
theorem SelectStatement.Reachable.order_ne {s : SelectStatement} (hs : s.Reachable) :
    s.order ≠ some [] := by
  induction hs with
  | fresh => simp
  | select s selection _ ih => simpa [SelectStatement.Select] using ih
  | from_ s t _ ih => simpa [SelectStatement.From] using ih
  | where_ s expr _ ih => simpa [SelectStatement.Where] using ih
  | limit s n _ ih => simpa [SelectStatement.Limit] using ih
  | offset s n _ ih => simpa [SelectStatement.Offset] using ih
  | order s o _ _ => simp [SelectStatement.Order]

/-- On every state, the text `ToSQL` builds has the `ORDER BY` part exactly when
the order slice is not nil. -/
theorem SelectStatement.select_build_fst (s : SelectStatement) :
    s.build.1 = "SELECT " ++ stringsJoin s.selection ", " ++ " FROM " ++ s.from_
      ++ whereText s.where_
      ++ (match s.order with
          | some order => " ORDER BY " ++ stringsJoin order ","
          | none => "")
      ++ (match s.limit with
          | some n => " LIMIT " ++ formatInt n
          | none => "")
      ++ (match s.offset with
          | some n => " OFFSET " ++ formatInt n
          | none => "") := by
  obtain ⟨selection, from_, where_, limit, offset, order⟩ := s
  cases where_ <;> cases order <;> cases limit <;> cases offset <;>
    simp [SelectStatement.build, whereText, String.append_assoc]

theorem SelectStatement.select_build_snd (s : SelectStatement) :
    s.build.2 = whereArgs s.where_ := by
  obtain ⟨selection, from_, where_, limit, offset, order⟩ := s
  cases where_ <;> simp [SelectStatement.build, whereArgs]

theorem SelectStatement.select_build_fst_of_order_ne (s : SelectStatement)
    (h : s.order ≠ some []) :
    s.build.1 = s.specText := by
  rw [SelectStatement.select_build_fst]
  obtain ⟨selection, from_, where_, limit, offset, order⟩ := s
  cases order with
  | none => simp [SelectStatement.specText, SelectStatement.orderEntries]
  | some order =>
    cases order with
    | nil => exact absurd rfl h
    | cons o os => simp [SelectStatement.specText, SelectStatement.orderEntries]

/-! ## Lemmas: numbering the texts of insert and update -/

theorem dollarNumberedFrom_eq (j : Nat) (s : String) :
    dollarNumberedFrom j s = String.mk (numberFrom ['$'] j s.data) := by
  simp [dollarNumberedFrom, pieces, joinNumbered_splitOn]

theorem dollarNumberedFrom_append (j : Nat) (a b : String) :
    dollarNumberedFrom j (a ++ b)
      = dollarNumberedFrom j a ++ dollarNumberedFrom (j + countQ a) b := by
  apply String.ext
  simp [dollarNumberedFrom_eq, numberFrom_append, countQ]

theorem dollarNumberedFrom_of_countQ_zero (j : Nat) {a : String} (h : countQ a = 0) :
    dollarNumberedFrom j a = a := by
  apply String.ext
  simp only [dollarNumberedFrom_eq]
  exact numberFrom_of_not_mem _ _ (List.count_eq_zero.mp h)

theorem dollarNumberedFrom_question (j : Nat) :
    dollarNumberedFrom j "?" = "$" ++ Nat.repr (j + 1) := by
  apply String.ext
  simp only [dollarNumberedFrom_eq, String.data_append]
  show numberFrom ['$'] j ['?'] = ['$'] ++ (Nat.repr (j + 1)).data
  simp [numberFrom]

theorem dollars_succ (j n : Nat) :
    dollars j (n + 1) = ("$" ++ Nat.repr (j + 1)) :: dollars (j + 1) n := by
  simp [dollars, List.range'_succ]

theorem dollarNumberedFrom_questions {α : Type} (j : Nat) (l : List α) :
    dollarNumberedFrom j (stringsJoin (l.map fun _ => "?") ",")
      = stringsJoin (dollars j l.length) "," := by
  have hcomma : countQ "," = 0 := by decide
  have hq : countQ "?" = 1 := by decide
  induction l generalizing j with
  | nil =>
    simpa [stringsJoin, dollars] using
      dollarNumberedFrom_of_countQ_zero j (show countQ "" = 0 by decide)
  | cons a rest ih =>
    cases rest with
    | nil => simpa [stringsJoin, dollars] using dollarNumberedFrom_question j
    | cons b rest =>
      have ih2 := ih (j + 1)
      simp only [List.map_cons, List.length_cons] at ih2 ⊢
      rw [dollars_succ, dollars_succ]
      rw [dollars_succ] at ih2
      simp only [stringsJoin] at ih2 ⊢
      rw [dollarNumberedFrom_append, dollarNumberedFrom_append, dollarNumberedFrom_question,
        countQ_append, hq, hcomma, dollarNumberedFrom_of_countQ_zero _ hcomma, ih2]

theorem dollarNumberedFrom_assignment (j : Nat) (c : String) (hc : countQ c = 0) :
    dollarNumberedFrom j (c ++ " = ?") = c ++ " = $" ++ Nat.repr (j + 1) := by
  have hc2 : '?' ∉ c.data := List.count_eq_zero.mp hc
  apply String.ext
  simp only [dollarNumberedFrom_eq, String.data_append, numberFrom_append,
    numberFrom_of_not_mem _ _ hc2, List.count_eq_zero_of_not_mem hc2]
  show c.data ++ numberFrom ['$'] (j + 0) [' ', '=', ' ', '?']
    = c.data ++ [' ', '=', ' ', '$'] ++ (Nat.repr (j + 1)).data
  simp [numberFrom]

theorem countQ_assignment (c : String) (hc : countQ c = 0) : countQ (c ++ " = ?") = 1 := by
  have h1 : countQ " = ?" = 1 := by decide
  rw [countQ_append, hc, h1]

theorem dollarNumberedFrom_sets (j : Nat) (columns : List String)
    (hc : ∀ c ∈ columns, countQ c = 0) :
    dollarNumberedFrom j (stringsJoin (columns.map fun c => c ++ " = ?") ",")
      = stringsJoin (assignments j columns) "," := by
  have hcomma : countQ "," = 0 := by decide
  have h1 : countQ " = ?" = 1 := by decide
  induction columns generalizing j with
  | nil =>
    simpa [stringsJoin, assignments] using
      dollarNumberedFrom_of_countQ_zero j (show countQ "" = 0 by decide)
  | cons a rest ih =>
    have ha : countQ a = 0 := hc a (by simp)
    cases rest with
    | nil => simpa [stringsJoin, assignments] using dollarNumberedFrom_assignment j a ha
    | cons b rest =>
      have ih2 := ih (j + 1) (fun c hcm => hc c (by simp [hcm]))
      simp only [List.map_cons, assignments, stringsJoin] at ih2 ⊢
      rw [dollarNumberedFrom_append, dollarNumberedFrom_append,
        dollarNumberedFrom_assignment j a ha]
      simp only [countQ_append, ha, h1, hcomma, Nat.zero_add, Nat.add_zero]
      rw [dollarNumberedFrom_of_countQ_zero _ hcomma, ih2]

theorem assignments_length (j : Nat) (columns : List String) :
    (assignments j columns).length = columns.length := by
  induction columns generalizing j with
  | nil => rfl
  | cons a rest ih => simp [assignments, ih]

theorem InsertStatement.insert_build_fst (s : InsertStatement) :
    s.build.1 = "INSERT INTO " ++ s.into ++ " (" ++ stringsJoin s.columns "," ++ ") VALUES ("
      ++ stringsJoin (s.values.map fun _ => "?") "," ++ ") RETURNING " ++ s.returning := by
  simp [InsertStatement.build, foldl_append_singleton (fun _ => "?") s.values []]

theorem UpdateStatement.update_build_fst (s : UpdateStatement) : s.build.1 = s.specText := by
  obtain ⟨table, columns, values, where_, returning⟩ := s
  cases where_ <;> by_cases hr : returning = "" <;>
    simp [UpdateStatement.build, UpdateStatement.specText, whereText, returningText, hr,
      foldl_append_singleton (fun col => col ++ " = ?") columns [], String.append_assoc]

theorem UpdateStatement.update_build_snd (s : UpdateStatement) :
    s.build.2 = s.values ++ whereArgs s.where_ := by
  obtain ⟨table, columns, values, where_, returning⟩ := s
  cases where_ <;> simp [UpdateStatement.build, whereArgs]

theorem DeleteStatemnet.delete_build_eq (s : DeleteStatemnet) :
    s.build = ("DELETE FROM " ++ s.from_ ++ whereText s.where_, whereArgs s.where_) := by
  obtain ⟨from_, where_⟩ := s
  cases where_ <;> simp [DeleteStatemnet.build, whereText, whereArgs, String.append_assoc]

theorem countQ_questions {α : Type} (l : List α) :
    countQ (stringsJoin (l.map fun _ => "?") ",") = l.length := by
  have h := countQ_insert_values (l.map fun _ => Value.int 0)
  rw [foldl_append_singleton (fun _ => "?") _ []] at h
  simpa using h

theorem countQ_sets (columns : List String) (hc : ∀ c ∈ columns, countQ c = 0) :
    countQ (stringsJoin (columns.map fun c => c ++ " = ?") ",") = columns.length := by
  have h := countQ_update_sets columns hc
  rw [foldl_append_singleton (fun c => c ++ " = ?") _ []] at h
  simpa using h

theorem InsertStatement.insert_numbered_build (s : InsertStatement)
    (hinto : countQ s.into = 0) (hcols : ∀ c ∈ s.columns, countQ c = 0)
    (hret : countQ s.returning = 0) :
    dollarNumbered s.build.1
      = "INSERT INTO " ++ s.into ++ " (" ++ stringsJoin s.columns "," ++ ") VALUES ("
        ++ stringsJoin (dollars 0 s.values.length) "," ++ ") RETURNING " ++ s.returning := by
  have hjoin := countQ_stringsJoin_zero s.columns "," hcols (by decide)
  have e1 : countQ "INSERT INTO " = 0 := by decide
  have e2 : countQ " (" = 0 := by decide
  have e3 : countQ ") VALUES (" = 0 := by decide
  have e4 : countQ ") RETURNING " = 0 := by decide
  rw [InsertStatement.insert_build_fst s, dollarNumbered]
  simp only [dollarNumberedFrom_append, countQ_append, hinto, hjoin, e1, e2, e3, e4,
    countQ_questions, Nat.zero_add, Nat.add_zero, dollarNumberedFrom_questions]
  rw [dollarNumberedFrom_of_countQ_zero _ e1, dollarNumberedFrom_of_countQ_zero _ hinto,
    dollarNumberedFrom_of_countQ_zero _ e2, dollarNumberedFrom_of_countQ_zero _ hjoin,
    dollarNumberedFrom_of_countQ_zero _ e3, dollarNumberedFrom_of_countQ_zero _ e4,
    dollarNumberedFrom_of_countQ_zero _ hret]

theorem dollarNumberedFrom_whereText (j : Nat) (w : Option Clause) :
    dollarNumberedFrom j (whereText w)
      = match w with
        | some w => " WHERE " ++ dollarNumberedFrom j w.fragment
        | none => "" := by
  have e0 : countQ "" = 0 := by decide
  have e1 : countQ " WHERE " = 0 := by decide
  cases w with
  | none => simpa [whereText] using dollarNumberedFrom_of_countQ_zero j e0
  | some w =>
    simp only [whereText, dollarNumberedFrom_append, e1, Nat.add_zero]
    rw [dollarNumberedFrom_of_countQ_zero _ e1]

theorem UpdateStatement.update_numbered_build (s : UpdateStatement)
    (htable : countQ s.table = 0) (hcols : ∀ c ∈ s.columns, countQ c = 0) :
    dollarNumbered s.build.1
      = "UPDATE " ++ s.table ++ " SET " ++ stringsJoin (assignments 0 s.columns) ","
        ++ (match s.where_ with
            | some w => " WHERE " ++ dollarNumberedFrom s.columns.length w.fragment
            | none => "")
        ++ dollarNumberedFrom (s.columns.length + countQ (whereText s.where_))
            (returningText s.returning) := by
  have e1 : countQ "UPDATE " = 0 := by decide
  have e2 : countQ " SET " = 0 := by decide
  rw [UpdateStatement.update_build_fst s, dollarNumbered, UpdateStatement.specText]
  simp only [dollarNumberedFrom_append, countQ_append, htable, e1, e2, countQ_sets _ hcols,
    Nat.zero_add, Nat.add_zero, dollarNumberedFrom_sets _ _ hcols, dollarNumberedFrom_whereText]
  rw [dollarNumberedFrom_of_countQ_zero _ e1, dollarNumberedFrom_of_countQ_zero _ htable,
    dollarNumberedFrom_of_countQ_zero _ e2]

theorem And_foldl (clauses : List Clause) (fragments : List String) (args : List Value) :
    clauses.foldl
        (fun (acc : List String × List Value) clause =>
          (acc.1 ++ ["(" ++ clause.fragment ++ ")"], acc.2 ++ clause.args))
        (fragments, args)
      = (fragments ++ clauses.map (fun c => "(" ++ c.fragment ++ ")"),
         args ++ (clauses.map fun c => c.args).flatten) := by
  induction clauses generalizing fragments args with
  | nil => simp
  | cons c rest ih => simp [ih]

theorem And_eq (clauses : List Clause) :
    And clauses
      = { fragment := stringsJoin (clauses.map fun c => "(" ++ c.fragment ++ ")") " AND ",
          args := (clauses.map fun c => c.args).flatten } := by
  simp [And, And_foldl]

theorem And_balanced (clauses : List Clause) (h : ∀ c ∈ clauses, c.balanced) :
    (And clauses).balanced := by
  have hsep : countQ " AND " = 0 := by decide
  have e1 : countQ "(" = 0 := by decide
  have e2 : countQ ")" = 0 := by decide
  rw [And_eq]
  simp only [Clause.balanced, countQ_stringsJoin, hsep, Nat.mul_zero, Nat.add_zero,
    List.length_flatten, List.map_map]
  congr 1
  apply List.map_congr_left
  intro c hc
  have hb := h c hc
  simp only [Clause.balanced] at hb
  simp [countQ_append, e1, e2, hb]

/-! ## Lemmas: repeated `Order` calls -/

theorem foldl_Order (os : List String) (s : SelectStatement) (hos : os ≠ []) :
    os.foldl SelectStatement.Order s
      = ⟨s.selection, s.from_, s.where_, s.limit, s.offset, some (s.orderEntries ++ os)⟩ := by
  induction os generalizing s with
  | nil => exact absurd rfl hos
  | cons o rest ih =>
    cases rest with
    | nil => rfl
    | cons o2 rest =>
      rw [List.foldl_cons, ih (s.Order o) (by simp)]
      simp [SelectStatement.Order, SelectStatement.orderEntries]

/-! ## Lemmas: the update statement of the post client -/

theorem PostClient.updateColumns_eq (now : Int) (input : PostUpdateInput) :
    (PostClient.updateColumnsValues now input).1
      = (if input.Title.isSome then ["title"] else [])
        ++ (if input.Content.isSome then ["content"] else []) ++ ["updated_at"] := by
  obtain ⟨ID, Title, Content, CreatedAt, UpdatedAt⟩ := input
  cases Title <;> cases Content <;> rfl

theorem PostClient.updateColumns_clean (now : Int) (input : PostUpdateInput) :
    ∀ c ∈ (PostClient.updateColumnsValues now input).1, countQ c = 0 := by
  have e1 : countQ "title" = 0 := by decide
  have e2 : countQ "content" = 0 := by decide
  have e3 : countQ "updated_at" = 0 := by decide
  rw [PostClient.updateColumns_eq]
  intro c hc
  simp only [List.mem_append, List.mem_singleton] at hc
  rcases hc with (hc | hc) | hc
  · split at hc
    · rw [List.mem_singleton.mp hc, e1]
    · simp at hc
  · split at hc
    · rw [List.mem_singleton.mp hc, e2]
    · simp at hc
  · rw [hc, e3]

theorem PostClient.updateSQL_eq (now : Int) (input : PostUpdateInput) :
    PostClient.updateSQL now input
      = some ("UPDATE posts SET "
          ++ stringsJoin (assignments 0 (PostClient.updateColumnsValues now input).1) ","
          ++ " WHERE posts.id = $"
          ++ Nat.repr ((PostClient.updateColumnsValues now input).1.length + 1)
          ++ " RETURNING id,title,content,created_at,updated_at",
        (PostClient.updateColumnsValues now input).2 ++ [Value.int input.ID]) := by
  have htable : countQ (PostClient.updateStatement now input).table = 0 :=
    show countQ "posts" = 0 by decide
  have hcols : ∀ c ∈ (PostClient.updateStatement now input).columns, countQ c = 0 :=
    PostClient.updateColumns_clean now input
  have hpid : countQ "posts.id" = 0 := by decide
  have hret : countQ " RETURNING id,title,content,created_at,updated_at" = 0 := by decide
  have hfrag : (ColumnPostID.EQ input.ID).fragment = "posts.id" ++ " = ?" :=
    show ("posts" ++ "." ++ "id" ++ " = ?" : String) = "posts.id" ++ " = ?" by decide
  have hwhere : (PostClient.updateStatement now input).where_
      = some (ColumnPostID.EQ input.ID) := rfl
  have hreturning : returningText (PostClient.updateStatement now input).returning
      = " RETURNING id,title,content,created_at,updated_at" :=
    show returningText "id,title,content,created_at,updated_at"
      = " RETURNING id,title,content,created_at,updated_at" by decide
  rw [PostClient.updateSQL, UpdateStatement.update_ToSQL_eq,
    UpdateStatement.update_numbered_build _ htable hcols, UpdateStatement.update_build_snd,
    hwhere, hreturning, dollarNumberedFrom_of_countQ_zero _ hret]
  simp only [hfrag, dollarNumberedFrom_assignment _ _ hpid, whereArgs]
  congr 1
  apply Prod.ext
  · apply String.ext
    simp [String.data_append, PostClient.updateStatement, UpdateStatement.Table,
      UpdateStatement.Columns, UpdateStatement.Values, UpdateStatement.Where,
      UpdateStatement.Returning]
  · simp [PostClient.updateStatement, UpdateStatement.Table,
      UpdateStatement.Columns, UpdateStatement.Values, UpdateStatement.Where,
      UpdateStatement.Returning, IntColumn.EQ]

/-! ## Lemmas: layouts -/

theorem rawText_append (a b : List Piece) : rawText (a ++ b) = rawText a ++ rawText b := by
  induction a with
  | nil => simp [rawText]
  | cons x xs ih => cases x <;> simp [rawText, ih, String.append_assoc]

theorem slotValues_append (a b : List Piece) :
    slotValues (a ++ b) = slotValues a ++ slotValues b := by
  induction a with
  | nil => simp [slotValues]
  | cons x xs ih => cases x <;> simp [slotValues, ih]

theorem cleanTexts_nil : cleanTexts [] := by
  intro t ht
  simp at ht

theorem cleanTexts_cons_text (t : String) (ps : List Piece) :
    cleanTexts (Piece.text t :: ps) ↔ countQ t = 0 ∧ cleanTexts ps := by
  constructor
  · intro h
    exact ⟨h t (by simp), fun u hu => h u (by simp [hu])⟩
  · rintro ⟨h1, h2⟩ u hu
    simp only [List.mem_cons, Piece.text.injEq] at hu
    rcases hu with rfl | hu
    · exact h1
    · exact h2 u hu

theorem cleanTexts_cons_slot (v : Value) (ps : List Piece) :
    cleanTexts (Piece.slot v :: ps) ↔ cleanTexts ps := by
  constructor
  · intro h u hu
    exact h u (by simp [hu])
  · intro h u hu
    simp only [List.mem_cons, reduceCtorEq, false_or] at hu
    exact h u hu

theorem cleanTexts_append (a b : List Piece) :
    cleanTexts (a ++ b) ↔ cleanTexts a ∧ cleanTexts b := by
  constructor
  · intro h
    exact ⟨fun u hu => h u (by simp [hu]), fun u hu => h u (by simp [hu])⟩
  · rintro ⟨h1, h2⟩ u hu
    rcases List.mem_append.mp hu with hu | hu
    · exact h1 u hu
    · exact h2 u hu

theorem countQ_rawText (ps : List Piece) (h : cleanTexts ps) :
    countQ (rawText ps) = (slotValues ps).length := by
  have hq : countQ "?" = 1 := by decide
  have he : countQ "" = 0 := by decide
  induction ps with
  | nil => simpa [rawText, slotValues] using he
  | cons x xs ih =>
    cases x with
    | text t =>
      obtain ⟨h1, h2⟩ := (cleanTexts_cons_text t xs).mp h
      simp [rawText, slotValues, countQ_append, h1, ih h2]
    | slot v =>
      have h2 := (cleanTexts_cons_slot v xs).mp h
      simp [rawText, slotValues, countQ_append, hq, ih h2, Nat.add_comm]

theorem numbered_rawText (j : Nat) (ps : List Piece) (h : cleanTexts ps) :
    dollarNumberedFrom j (rawText ps) = numberedText j ps := by
  have hq : countQ "?" = 1 := by decide
  have he : countQ "" = 0 := by decide
  induction ps generalizing j with
  | nil => simpa [rawText, numberedText] using dollarNumberedFrom_of_countQ_zero j he
  | cons x xs ih =>
    cases x with
    | text t =>
      obtain ⟨h1, h2⟩ := (cleanTexts_cons_text t xs).mp h
      simp only [rawText, numberedText]
      rw [dollarNumberedFrom_append, dollarNumberedFrom_of_countQ_zero _ h1, h1, Nat.add_zero,
        ih j h2]
    | slot v =>
      have h2 := (cleanTexts_cons_slot v xs).mp h
      simp only [rawText, numberedText]
      rw [dollarNumberedFrom_append, dollarNumberedFrom_question, hq, ih (j + 1) h2]

theorem weave_spec (ps : List (List Char)) (vs : List Value)
    (hlen : ps.length = vs.length + 1) :
    (rawText (weave ps vs)).data = ['?'].intercalate ps ∧ slotValues (weave ps vs) = vs := by
  induction ps generalizing vs with
  | nil => simp at hlen
  | cons p rest ih =>
    cases rest with
    | nil =>
      have hvs : vs = [] := by
        cases vs with
        | nil => rfl
        | cons a as => simp at hlen
      subst hvs
      simp [weave, rawText, slotValues, List.intercalate, List.intersperse]
    | cons q rest =>
      cases vs with
      | nil => simp at hlen
      | cons a as =>
        obtain ⟨h1, h2⟩ := ih as (by simpa using hlen)
        refine ⟨?_, by simp [weave, slotValues, h2]⟩
        have hi : ['?'].intercalate (p :: q :: rest)
            = p ++ '?' :: ['?'].intercalate (q :: rest) := by
          simp [List.intercalate, List.intersperse]
        rw [hi, ← h1]
        simp [weave, rawText]

theorem weave_clean (ps : List (List Char)) (vs : List Value) (h : ∀ p ∈ ps, '?' ∉ p) :
    cleanTexts (weave ps vs) := by
  induction ps generalizing vs with
  | nil => simpa [weave] using cleanTexts_nil
  | cons p rest ih =>
    have hp : countQ (String.mk p) = 0 := List.count_eq_zero_of_not_mem (h p (by simp))
    cases rest with
    | nil =>
      simp only [weave]
      exact (cleanTexts_cons_text _ _).mpr ⟨hp, cleanTexts_nil⟩
    | cons q rest =>
      cases vs with
      | nil =>
        simp only [weave]
        exact (cleanTexts_cons_text _ _).mpr ⟨hp, cleanTexts_nil⟩
      | cons a as =>
        simp only [weave]
        exact (cleanTexts_cons_text _ _).mpr
          ⟨hp, (cleanTexts_cons_slot _ _).mpr (ih as (fun x hx => h x (by simp [hx])))⟩

theorem Clause.layout_spec (c : Clause) (hc : c.balanced) :
    rawText c.layout = c.fragment ∧ slotValues c.layout = c.args ∧ cleanTexts c.layout := by
  have hlen : (pieces c.fragment).length = c.args.length + 1 := by
    rw [pieces, length_splitOn]
    exact congrArg (· + 1) hc
  obtain ⟨h1, h2⟩ := weave_spec (pieces c.fragment) c.args hlen
  refine ⟨String.ext ?_, h2, weave_clean _ _ (splitOn_no_question c.fragment.data)⟩
  rw [Clause.layout, h1]
  exact @List.intercalate_splitOn _ c.fragment.data '?' _

theorem whereLayout_spec (w : Option Clause) (hw : ∀ c ∈ w, c.balanced) :
    rawText (whereLayout w) = whereText w ∧ slotValues (whereLayout w) = whereArgs w
      ∧ cleanTexts (whereLayout w) := by
  cases w with
  | none => exact ⟨rfl, rfl, cleanTexts_nil⟩
  | some c =>
    obtain ⟨h1, h2, h3⟩ := c.layout_spec (hw c rfl)
    refine ⟨?_, ?_, (cleanTexts_cons_text _ _).mpr ⟨by decide, h3⟩⟩
    · simp [whereLayout, rawText, whereText, h1]
    · simp [whereLayout, slotValues, whereArgs, h2]

theorem valueSlots_spec (vs : List Value) :
    rawText (valueSlots vs) = stringsJoin (vs.map fun _ => "?") ","
      ∧ slotValues (valueSlots vs) = vs ∧ cleanTexts (valueSlots vs) := by
  induction vs with
  | nil => exact ⟨rfl, rfl, cleanTexts_nil⟩
  | cons v rest ih =>
    cases rest with
    | nil =>
      refine ⟨by simp [valueSlots, rawText, stringsJoin], rfl, ?_⟩
      exact (cleanTexts_cons_slot _ _).mpr cleanTexts_nil
    | cons w rest =>
      obtain ⟨h1, h2, h3⟩ := ih
      refine ⟨?_, by simp [valueSlots, slotValues, h2], ?_⟩
      · simp only [valueSlots, rawText, List.map_cons, stringsJoin] at h1 ⊢
        rw [h1, String.append_assoc]
      · exact (cleanTexts_cons_slot _ _).mpr
          ((cleanTexts_cons_text _ _).mpr ⟨by decide, h3⟩)

theorem assignmentSlots_spec (columns : List String) (values : List Value)
    (hlen : columns.length = values.length) (hc : ∀ c ∈ columns, countQ c = 0) :
    rawText (assignmentSlots columns values)
        = stringsJoin (columns.map fun c => c ++ " = ?") ","
      ∧ slotValues (assignmentSlots columns values) = values
      ∧ cleanTexts (assignmentSlots columns values) := by
  have hsp : countQ " = " = 0 := by decide
  have hlit : (" = " : String) ++ "?" = " = ?" := by decide
  induction columns generalizing values with
  | nil =>
    have hv : values = [] := List.length_eq_zero.mp (by simpa using hlen.symm)
    subst hv
    exact ⟨rfl, rfl, cleanTexts_nil⟩
  | cons c rest ih =>
    have hcc : countQ (c ++ " = ") = 0 := by rw [countQ_append, hc c (by simp), hsp]
    cases values with
    | nil => simp at hlen
    | cons v vs =>
      cases rest with
      | nil =>
        have hv : vs = [] := List.length_eq_zero.mp (by simpa using hlen.symm)
        subst hv
        refine ⟨?_, rfl, ?_⟩
        · simp only [assignmentSlots, rawText, List.map_cons, List.map_nil, stringsJoin,
            String.append_empty]
          rw [String.append_assoc, hlit]
        · exact (cleanTexts_cons_text _ _).mpr
            ⟨hcc, (cleanTexts_cons_slot _ _).mpr cleanTexts_nil⟩
      | cons d rest =>
        obtain ⟨h1, h2, h3⟩ := ih vs (by simpa using hlen) (fun x hx => hc x (by simp [hx]))
        refine ⟨?_, by simp [assignmentSlots, slotValues, h2], ?_⟩
        · simp only [assignmentSlots, rawText, List.map_cons, stringsJoin] at h1 ⊢
          rw [h1]
          simp only [String.append_assoc]
          rw [← String.append_assoc " = " "?", hlit]
        · exact (cleanTexts_cons_text _ _).mpr
            ⟨hcc, (cleanTexts_cons_slot _ _).mpr
              ((cleanTexts_cons_text _ _).mpr ⟨by decide, h3⟩)⟩

theorem SelectStatement.countQ_tailText (s : SelectStatement)
    (hord : ∀ order ∈ s.order, ∀ o ∈ order, countQ o = 0) : countQ s.tailText = 0 := by
  simp only [Option.mem_def] at hord
  have hord2 : ∀ order, s.order = some order → countQ (stringsJoin order ",") = 0 :=
    fun order ho => countQ_stringsJoin_zero order "," (hord order ho) (by decide)
  have e0 : countQ "" = 0 := by decide
  have e4 : countQ " ORDER BY " = 0 := by decide
  have e5 : countQ " LIMIT " = 0 := by decide
  have e6 : countQ " OFFSET " = 0 := by decide
  obtain ⟨selection, from_, where_, limit, offset, order⟩ := s
  simp only at hord2
  cases order <;> cases limit <;> cases offset <;>
    simp [SelectStatement.tailText, countQ_append, countQ_formatInt, hord2, e0, e4, e5, e6]

theorem SelectStatement.select_layout_spec (s : SelectStatement)
    (hsel : ∀ x ∈ s.selection, countQ x = 0) (hfrom : countQ s.from_ = 0)
    (hord : ∀ order ∈ s.order, ∀ o ∈ order, countQ o = 0)
    (hw : ∀ w ∈ s.where_, countQ w.fragment = w.args.length) :
    rawText s.layout = s.build.1 ∧ slotValues s.layout = whereArgs s.where_
      ∧ cleanTexts s.layout := by
  obtain ⟨h1, h2, h3⟩ := whereLayout_spec s.where_ hw
  have e1 : countQ "SELECT " = 0 := by decide
  have e2 : countQ " FROM " = 0 := by decide
  have hhead : countQ ("SELECT " ++ stringsJoin s.selection ", " ++ " FROM " ++ s.from_) = 0 := by
    simp [countQ_append, countQ_stringsJoin_zero s.selection ", " hsel (by decide), hfrom, e1, e2]
  refine ⟨?_, ?_, ?_⟩
  · rw [SelectStatement.select_build_fst]
    simp [SelectStatement.layout, rawText, rawText_append, h1, SelectStatement.tailText,
      String.append_assoc]
  · simp [SelectStatement.layout, slotValues, slotValues_append, h2]
  · exact (cleanTexts_cons_text _ _).mpr ⟨hhead, (cleanTexts_append _ _).mpr
      ⟨h3, (cleanTexts_cons_text _ _).mpr ⟨s.countQ_tailText hord, cleanTexts_nil⟩⟩⟩

theorem InsertStatement.insert_layout_spec (s : InsertStatement)
    (hinto : countQ s.into = 0) (hcols : ∀ c ∈ s.columns, countQ c = 0)
    (hret : countQ s.returning = 0) :
    rawText s.layout = s.build.1 ∧ slotValues s.layout = s.values ∧ cleanTexts s.layout := by
  obtain ⟨h1, h2, h3⟩ := valueSlots_spec s.values
  have e1 : countQ "INSERT INTO " = 0 := by decide
  have e2 : countQ " (" = 0 := by decide
  have e3 : countQ ") VALUES (" = 0 := by decide
  have e4 : countQ ") RETURNING " = 0 := by decide
  have hjoin := countQ_stringsJoin_zero s.columns "," hcols (by decide)
  refine ⟨?_, ?_, ?_⟩
  · rw [InsertStatement.insert_build_fst]
    simp [InsertStatement.layout, rawText, rawText_append, h1, String.append_assoc]
  · simp [InsertStatement.layout, slotValues, slotValues_append, h2]
  · refine (cleanTexts_cons_text _ _).mpr ⟨?_, (cleanTexts_append _ _).mpr
      ⟨h3, (cleanTexts_cons_text _ _).mpr ⟨?_, cleanTexts_nil⟩⟩⟩
    · simp [countQ_append, hinto, hjoin, e1, e2, e3]
    · simp [countQ_append, hret, e4]

theorem countQ_returningText (returning : String) (h : countQ returning = 0) :
    countQ (returningText returning) = 0 := by
  have e0 : countQ "" = 0 := by decide
  have e1 : countQ " RETURNING " = 0 := by decide
  unfold returningText
  split
  · rw [countQ_append, e1, h]
  · exact e0

theorem UpdateStatement.update_layout_spec (s : UpdateStatement)
    (htable : countQ s.table = 0) (hcols : ∀ c ∈ s.columns, countQ c = 0)
    (hret : countQ s.returning = 0)
    (hw : ∀ w ∈ s.where_, countQ w.fragment = w.args.length)
    (hlen : s.columns.length = s.values.length) :
    rawText s.layout = s.build.1 ∧ slotValues s.layout = s.values ++ whereArgs s.where_
      ∧ cleanTexts s.layout := by
  obtain ⟨h1, h2, h3⟩ := whereLayout_spec s.where_ hw
  obtain ⟨a1, a2, a3⟩ := assignmentSlots_spec s.columns s.values hlen hcols
  have e1 : countQ "UPDATE " = 0 := by decide
  have e2 : countQ " SET " = 0 := by decide
  refine ⟨?_, ?_, ?_⟩
  · rw [UpdateStatement.update_build_fst]
    simp [UpdateStatement.layout, UpdateStatement.specText, rawText, rawText_append, h1, a1,
      String.append_assoc]
  · simp [UpdateStatement.layout, slotValues, slotValues_append, h2, a2]
  · refine (cleanTexts_cons_text _ _).mpr ⟨?_, (cleanTexts_append _ _).mpr
      ⟨(cleanTexts_append _ _).mpr ⟨a3, h3⟩,
        (cleanTexts_cons_text _ _).mpr ⟨countQ_returningText _ hret, cleanTexts_nil⟩⟩⟩
    simp [countQ_append, htable, e1, e2]

theorem DeleteStatemnet.delete_layout_spec (s : DeleteStatemnet)
    (hfrom : countQ s.from_ = 0)
    (hw : ∀ w ∈ s.where_, countQ w.fragment = w.args.length) :
    rawText s.layout = s.build.1 ∧ slotValues s.layout = whereArgs s.where_
      ∧ cleanTexts s.layout := by
  obtain ⟨h1, h2, h3⟩ := whereLayout_spec s.where_ hw
  have e1 : countQ "DELETE FROM " = 0 := by decide
  refine ⟨?_, ?_, ?_⟩
  · rw [DeleteStatemnet.delete_build_eq]
    simp [DeleteStatemnet.layout, rawText, h1]
  · simp [DeleteStatemnet.layout, slotValues, h2]
  · exact (cleanTexts_cons_text _ _).mpr ⟨by simp [countQ_append, hfrom, e1], h3⟩

theorem numberedText_append (j : Nat) (a b : List Piece) :
    numberedText j (a ++ b)
      = numberedText j a ++ numberedText (j + (slotValues a).length) b := by
  induction a generalizing j with
  | nil => simp [numberedText, slotValues]
  | cons x xs ih =>
    cases x with
    | text t => simp [numberedText, slotValues, ih, String.append_assoc]
    | slot v =>
      simp [numberedText, slotValues, ih, String.append_assoc, Nat.add_assoc, Nat.add_comm 1]

/-- In any layout, the slot that has `k` slots before it is written `$(k+1)` and
its value is entry `k` of the slot values. -/
theorem slot_numbering (a b : List Piece) (v : Value) :
    numberedText 0 (a ++ Piece.slot v :: b)
        = numberedText 0 a ++ ("$" ++ Nat.repr ((slotValues a).length + 1)
            ++ numberedText ((slotValues a).length + 1) b)
      ∧ (slotValues (a ++ Piece.slot v :: b))[(slotValues a).length]? = some v := by
  constructor
  · rw [numberedText_append]
    simp [numberedText]
  · rw [slotValues_append, List.getElem?_append_right (Nat.le_refl _)]
    simp [slotValues]

/-- A statement whose built text and args are those of a layout with clean
texts is rendered with the `i`-th slot as `$i` and returns the slot values. -/
theorem rendered_of_layout (ps : List Piece) (raw : String) (args : List Value)
    (h1 : rawText ps = raw) (h2 : slotValues ps = args) (h3 : cleanTexts ps) :
    some (dollarNumbered raw, args) = some (numberedText 0 ps, slotValues ps) := by
  rw [← h1, ← h2, dollarNumbered, numbered_rawText 0 ps h3]

/-! ## Lemmas: slices and `append` -/

theorem getD_set_nil {α : Type} (l : List (List α)) (i j : Nat) (a : List α) :
    (l.set i a).getD j [] = if i = j ∧ i < l.length then a else l.getD j [] := by
  simp only [List.getD_eq_getElem?_getD, List.getElem?_set]
  by_cases hij : i = j
  · subst hij
    by_cases hi : i < l.length
    · simp [hi]
    · simp [hi, List.getElem?_eq_none (Nat.le_of_not_lt hi)]
  · simp [hij]

theorem getD_append_singleton {α : Type} (l : List (List α)) (j : Nat) (a : List α) :
    (l ++ [a]).getD j []
      = if j < l.length then l.getD j [] else if j = l.length then a else [] := by
  simp only [List.getD_eq_getElem?_getD]
  by_cases hj : j < l.length
  · simp [hj, List.getElem?_append_left hj]
  · by_cases hj2 : j = l.length
    · subst hj2
      simp
    · have hj3 : l.length + 1 ≤ j := by omega
      have : (l ++ [a])[j]? = none := List.getElem?_eq_none (by simpa using hj3)
      simp [hj, hj2, this]

theorem Heap.array_of_le (h : Heap) (a : Nat) (ha : h.arrays.length ≤ a) : h.array a = [] := by
  simp [Heap.array, List.getD_eq_getElem?_getD, List.getElem?_eq_none ha]

theorem Slice.valid_of_le (h : Heap) (sl : Slice) (hv : sl.valid h)
    (ha : h.arrays.length ≤ sl.arr) : sl.off = 0 ∧ sl.len = 0 ∧ sl.cap = 0 := by
  obtain ⟨h1, h2⟩ := hv
  rw [Heap.array_of_le h _ ha] at h2
  simp at h2
  omega

theorem Heap.read_length (h : Heap) (sl : Slice) (hv : sl.valid h) :
    (h.read sl).length = sl.len := by
  obtain ⟨h1, h2⟩ := hv
  simp [Heap.read]
  omega

theorem write_length (a xs : List Value) (n : Nat) (hn : n + xs.length ≤ a.length) :
    (a.take n ++ xs ++ a.drop (n + xs.length)).length = a.length := by
  simp
  omega

theorem write_take (a xs : List Value) (n m : Nat) (hm : m ≤ n) (hn : n ≤ a.length) :
    (a.take n ++ xs ++ a.drop (n + xs.length)).take m = a.take m := by
  rw [List.append_assoc, List.take_append_of_le_length (by simp; omega), List.take_take]
  congr 1
  omega

theorem read_of_take_eq (L M : List Value) (o l : Nat)
    (h : L.take (o + l) = M.take (o + l)) : (L.drop o).take l = (M.drop o).take l := by
  have e1 : (L.take (o + l)).drop o = (L.drop o).take l := by
    rw [List.drop_take]
    congr 1
    omega
  have e2 : (M.take (o + l)).drop o = (M.drop o).take l := by
    rw [List.drop_take]
    congr 1
    omega
  rw [← e1, ← e2, h]

theorem write_read (a xs : List Value) (off len : Nat)
    (h : off + len + xs.length ≤ a.length) :
    ((a.take (off + len) ++ xs ++ a.drop (off + len + xs.length)).drop off).take
        (len + xs.length)
      = (a.drop off).take len ++ xs := by
  have hsplit : a.take (off + len) = a.take off ++ (a.drop off).take len := List.take_add _ _ _
  have hl1 : (a.take off).length = off := by simp; omega
  have hl2 : ((a.drop off).take len).length = len := by simp; omega
  rw [hsplit, List.append_assoc, List.append_assoc, List.drop_left' hl1, ← List.append_assoc,
    List.take_left' (by simp [hl2])]

theorem Heap.array_append (h : Heap) (sl : Slice) (xs : List Value) (b : Nat) :
    (h.append sl xs).1.array b
      = if sl.len + xs.length ≤ sl.cap then
          (if sl.arr = b ∧ sl.arr < h.arrays.length then
            (h.array sl.arr).take (sl.off + sl.len) ++ xs
              ++ (h.array sl.arr).drop (sl.off + sl.len + xs.length)
          else h.array b)
        else if b < h.arrays.length then h.array b
        else if b = h.arrays.length then h.read sl ++ xs else [] := by
  by_cases hfit : sl.len + xs.length ≤ sl.cap
  · simp only [Heap.append, hfit, if_true, Heap.array]
    exact getD_set_nil _ _ _ _
  · simp only [Heap.append, hfit, if_false, Heap.array]
    exact getD_append_singleton _ _ _

theorem Heap.read_append_result (h : Heap) (sl : Slice) (xs : List Value) (hv : sl.valid h) :
    (h.append sl xs).1.read (h.append sl xs).2 = h.read sl ++ xs := by
  have harr := Heap.array_append h sl xs
  by_cases hfit : sl.len + xs.length ≤ sl.cap
  · have hs : (h.append sl xs).2 = { sl with len := sl.len + xs.length } := by
      simp [Heap.append, hfit]
    by_cases hin : sl.arr < h.arrays.length
    · rw [Heap.read, hs, harr]
      simp only [hfit, if_true, hin, and_self]
      rw [Heap.read]
      exact write_read _ _ _ _ (by have := hv.2; omega)
    · obtain ⟨h1, h2, h3⟩ := Slice.valid_of_le h sl hv (Nat.le_of_not_lt hin)
      have hx : xs = [] := List.length_eq_zero.mp (by omega)
      subst hx
      rw [Heap.read, hs, harr]
      simp [hfit, hin, Heap.read, h2]
  · have hs : (h.append sl xs).2
        = ⟨h.arrays.length, 0, sl.len + xs.length, sl.len + xs.length⟩ := by
      simp [Heap.append, hfit]
    rw [Heap.read, hs, harr]
    simp only [hfit, if_false, Nat.lt_irrefl, List.drop_zero]
    apply List.take_of_length_le
    simp [Heap.read_length h sl hv]

theorem Heap.read_append_other (h : Heap) (sl t : Slice) (xs : List Value)
    (hv : sl.valid h) (ht : t.valid h)
    (hsep : t.arr ≠ sl.arr ∨ t.off + t.len ≤ sl.off + sl.len ∨ sl.len = sl.cap) :
    (h.append sl xs).1.read t = h.read t := by
  have harr := Heap.array_append h sl xs t.arr
  rw [Heap.read, Heap.read, harr]
  by_cases hfit : sl.len + xs.length ≤ sl.cap
  · rw [if_pos hfit]
    by_cases hin : sl.arr = t.arr ∧ sl.arr < h.arrays.length
    · rw [if_pos hin]
      obtain ⟨he, hlt⟩ := hin
      rcases hsep with h1 | h2 | h3
      · exact absurd he.symm h1
      · rw [← he]
        apply read_of_take_eq
        exact write_take (h.array sl.arr) xs (sl.off + sl.len) (t.off + t.len) h2
          (by have := hv.2; have := hv.1; omega)
      · have hx : xs = [] := List.length_eq_zero.mp (by omega)
        subst hx
        simp [he]
    · rw [if_neg hin]
  · rw [if_neg hfit]
    by_cases hin : t.arr < h.arrays.length
    · simp [hin]
    · obtain ⟨h1, h2, h3⟩ := Slice.valid_of_le h t ht (Nat.le_of_not_lt hin)
      simp [h2]

theorem Heap.valid_append_other (h : Heap) (sl t : Slice) (xs : List Value)
    (hv : sl.valid h) (ht : t.valid h) : t.valid (h.append sl xs).1 := by
  have harr := Heap.array_append h sl xs t.arr
  refine ⟨ht.1, ?_⟩
  rw [harr]
  by_cases hfit : sl.len + xs.length ≤ sl.cap
  · rw [if_pos hfit]
    by_cases hin : sl.arr = t.arr ∧ sl.arr < h.arrays.length
    · rw [if_pos hin,
        write_length (h.array sl.arr) xs (sl.off + sl.len) (by have := hv.2; omega), hin.1]
      exact ht.2
    · rw [if_neg hin]
      exact ht.2
  · rw [if_neg hfit]
    by_cases hin : t.arr < h.arrays.length
    · rw [if_pos hin]
      exact ht.2
    · obtain ⟨h1, h2, h3⟩ := Slice.valid_of_le h t ht (Nat.le_of_not_lt hin)
      omega

theorem Slice.empty_valid (h : Heap) : Slice.empty.valid h := by
  simp [Slice.valid, Slice.empty]

theorem Heap.read_empty (h : Heap) : h.read Slice.empty = [] := by
  simp [Heap.read, Slice.empty]

theorem whereAppend_spec (h : Heap) (args : Slice) (w : Option ClauseFields)
    (hargs : args.valid h) (hw : ∀ c ∈ w, c.args.valid h) :
    (whereAppend h args w).1.read (whereAppend h args w).2
        = h.read args ++ whereArgs (w.map (ClauseFields.clause h))
    ∧ (∀ t : Slice, t.valid h →
        (t.arr ≠ args.arr ∨ t.off + t.len ≤ args.off + args.len ∨ args.len = args.cap) →
        (whereAppend h args w).1.read t = h.read t)
    ∧ (∀ t : Slice, t.valid h → t.valid (whereAppend h args w).1) := by
  cases w with
  | none => simp [whereAppend, whereArgs]
  | some c =>
    refine ⟨?_, ?_, ?_⟩
    · simpa [whereAppend, whereArgs, ClauseFields.clause] using
        Heap.read_append_result h args (h.read c.args) hargs
    · intro t ht hsep
      exact Heap.read_append_other h args t _ hargs ht hsep
    · intro t ht
      exact Heap.valid_append_other h args t _ hargs ht

theorem clause_map_congr (h h2 : Heap) (w : Option ClauseFields)
    (hr : ∀ c ∈ w, h2.read c.args = h.read c.args) :
    w.map (ClauseFields.clause h2) = w.map (ClauseFields.clause h) := by
  cases w with
  | none => rfl
  | some c => simp [ClauseFields.clause, hr c rfl]

theorem SelectFields.select_memory_eq (h : Heap) (s : SelectFields) :
    SelectFields.ToSQL h s
      = ((Rebind DOLLAR (s.statement h).build.1).map fun q =>
            (q, (whereAppend h Slice.empty s.where_).2),
          (whereAppend h Slice.empty s.where_).1, s) := by
  obtain ⟨selection, from_, where_, limit, offset, order⟩ := s
  cases where_ <;> cases order <;> cases limit <;> cases offset <;> rfl

theorem UpdateFields.update_memory_eq (h : Heap) (s : UpdateFields) :
    UpdateFields.ToSQL h s
      = ((Rebind DOLLAR (s.statement h).build.1).map fun q =>
            (q, (whereAppend h s.values s.where_).2),
          (whereAppend h s.values s.where_).1, s) := by
  obtain ⟨table, columns, values, where_, returning⟩ := s
  cases where_ <;> rfl

theorem DeleteFields.delete_memory_eq (h : Heap) (s : DeleteFields) :
    DeleteFields.ToSQL h s
      = ((Rebind DOLLAR (s.statement h).build.1).map fun q =>
            (q, (whereAppend h Slice.empty s.where_).2),
          (whereAppend h Slice.empty s.where_).1, s) := by
  obtain ⟨from_, where_⟩ := s
  cases where_ <;> rfl

theorem questions_of_length {α : Type} (l : List α) (n : Nat) (hn : l.length = n) :
    (List.range n).foldl (fun (values : List String) _ => values ++ ["?"]) []
      = l.foldl (fun (values : List String) _ => values ++ ["?"]) [] := by
  rw [foldl_append_singleton (fun _ => "?") (List.range n) [],
    foldl_append_singleton (fun _ => "?") l []]
  simp [List.map_const', hn]

theorem InsertFields.insert_memory_eq (h : Heap) (s : InsertFields) (hv : s.values.valid h) :
    InsertFields.ToSQL h s
      = ((Rebind DOLLAR (s.statement h).build.1).map fun q => (q, s.values), h, s) := by
  simp only [InsertFields.ToSQL, InsertFields.statement, InsertStatement.build]
  rw [questions_of_length (h.read s.values) s.values.len (Heap.read_length h _ hv)]

theorem SelectFields.select_call_spec (h : Heap) (s : SelectFields) (hwf : s.wellFormed h) :
    (SelectFields.ToSQL h s).2.2 = s
    ∧ s.statement (SelectFields.ToSQL h s).2.1 = s.statement h
    ∧ s.wellFormed (SelectFields.ToSQL h s).2.1
    ∧ readResult (SelectFields.ToSQL h s) = (s.statement h).ToSQL := by
  obtain ⟨w1, w2, w3⟩ := whereAppend_spec h Slice.empty s.where_ (Slice.empty_valid h) hwf
  rw [SelectFields.select_memory_eq]
  refine ⟨rfl, ?_, ?_, ?_⟩
  · simp only [SelectFields.statement]
    rw [clause_map_congr _ _ _ (fun c hc => w2 c.args (hwf c hc) (Or.inr (Or.inr rfl)))]
  · intro c hc
    exact w3 _ (hwf c hc)
  · simp only [readResult, Option.map_map, SelectStatement.ToSQL, Function.comp_def]
    rw [w1, Heap.read_empty, List.nil_append, SelectStatement.select_build_snd]
    rfl

theorem DeleteFields.delete_call_spec (h : Heap) (s : DeleteFields) (hwf : s.wellFormed h) :
    (DeleteFields.ToSQL h s).2.2 = s
    ∧ s.statement (DeleteFields.ToSQL h s).2.1 = s.statement h
    ∧ s.wellFormed (DeleteFields.ToSQL h s).2.1
    ∧ readResult (DeleteFields.ToSQL h s) = (s.statement h).ToSQL := by
  obtain ⟨w1, w2, w3⟩ := whereAppend_spec h Slice.empty s.where_ (Slice.empty_valid h) hwf
  rw [DeleteFields.delete_memory_eq]
  refine ⟨rfl, ?_, ?_, ?_⟩
  · simp only [DeleteFields.statement]
    rw [clause_map_congr _ _ _ (fun c hc => w2 c.args (hwf c hc) (Or.inr (Or.inr rfl)))]
  · intro c hc
    exact w3 _ (hwf c hc)
  · simp only [readResult, Option.map_map, DeleteStatemnet.ToSQL, Function.comp_def]
    rw [w1, Heap.read_empty, List.nil_append, DeleteStatemnet.delete_build_eq]
    rfl

theorem UpdateFields.update_call_spec (h : Heap) (s : UpdateFields) (hwf : s.wellFormed h) :
    (UpdateFields.ToSQL h s).2.2 = s
    ∧ s.statement (UpdateFields.ToSQL h s).2.1 = s.statement h
    ∧ s.wellFormed (UpdateFields.ToSQL h s).2.1
    ∧ readResult (UpdateFields.ToSQL h s) = (s.statement h).ToSQL := by
  obtain ⟨hv, hw⟩ := hwf
  obtain ⟨w1, w2, w3⟩ := whereAppend_spec h s.values s.where_ hv (fun c hc => (hw c hc).1)
  rw [UpdateFields.update_memory_eq]
  refine ⟨rfl, ?_, ⟨w3 _ hv, fun c hc => ⟨w3 _ (hw c hc).1, (hw c hc).2⟩⟩, ?_⟩
  · simp only [UpdateFields.statement]
    rw [clause_map_congr _ _ _ (fun c hc => w2 c.args (hw c hc).1 (hw c hc).2),
      w2 s.values hv (Or.inr (Or.inl (Nat.le_refl _)))]
  · simp only [readResult, Option.map_map, UpdateStatement.ToSQL, Function.comp_def]
    rw [w1, UpdateStatement.update_build_snd]
    rfl

theorem InsertFields.insert_call_spec (h : Heap) (s : InsertFields) (hwf : s.wellFormed h) :
    (InsertFields.ToSQL h s).2.2 = s
    ∧ s.statement (InsertFields.ToSQL h s).2.1 = s.statement h
    ∧ s.wellFormed (InsertFields.ToSQL h s).2.1
    ∧ readResult (InsertFields.ToSQL h s) = (s.statement h).ToSQL := by
  rw [InsertFields.insert_memory_eq h s hwf]
  refine ⟨rfl, rfl, hwf, ?_⟩
  simp only [readResult, Option.map_map, InsertStatement.ToSQL, Function.comp_def]
  rfl

/-- The separation of the clause args from the spare capacity of `values` is
needed: on the aliased struct the first call overwrites a clause argument, and
the second call returns other args than the first. -/
theorem UpdateFields.aliased_calls_differ :
    ¬ aliasedUpdateFields.wellFormed aliasedHeap
    ∧ readResult (UpdateFields.ToSQL aliasedHeap aliasedUpdateFields)
        = some ("UPDATE users SET name = $1 WHERE a = $2 AND b = $3",
            [Value.str "demo", Value.int 8, Value.int 9])
    ∧ readResult (secondCall UpdateFields.ToSQL aliasedHeap aliasedUpdateFields)
        = some ("UPDATE users SET name = $1 WHERE a = $2 AND b = $3",
            [Value.str "demo", Value.int 9, Value.int 9]) := by
  decide

/-! ## Claims -/

/-- C1: for every string `q`, `Rebind(DOLLAR, q)` returns the text obtained by
splitting `q` at each `?` into pieces `p0, ..., pk`, where `k` is the number of
`?` in `q`, and concatenating `p0 ++ "$1" ++ p1 ++ ... ++ "$k" ++ pk` with the
indices in decimal.  The pieces contain no `?` and put back together with `?`
they give `q`, so every other character is copied unchanged and in order; the
output contains no `?`; and the tenth placeholder is written `$10`. -/
theorem C1_Rebind_dollar_split_join (q : String) :
    Rebind DOLLAR q = some (String.mk (joinNumbered ['$'] 0 (pieces q)))
    ∧ (pieces q).length = countQ q + 1
    ∧ ['?'].intercalate (pieces q) = q.data
    ∧ (∀ p ∈ pieces q, '?' ∉ p)
    ∧ (∀ out, Rebind DOLLAR q = some out → '?' ∉ out.data)
    ∧ Rebind DOLLAR "?,?,?,?,?,?,?,?,?,?" = some "$1,$2,$3,$4,$5,$6,$7,$8,$9,$10" := by
  refine ⟨Rebind_DOLLAR_eq q, length_splitOn q.data, @List.intercalate_splitOn _ q.data '?' _,
    splitOn_no_question q.data, ?_, by decide⟩
  intro out hout
  rw [Rebind_DOLLAR_eq] at hout
  obtain rfl := Option.some.inj hout
  exact List.count_eq_zero.mp (dollarNumbered_no_question q)

/-- C2: for each of the four builders, if the supplied identifiers (table,
selection, column names, order entries, returning list) contain no `?`, the
Where clause (when set) has as many `?` in its fragment as it has args, and
(for Update) there are as many columns as values, then `ToSQL` returns
`(sql, args)` where `sql` is a text with exactly `len(args)` occurrences of `?`
in which the `i`-th `?` has been replaced by `$i`.  Placeholder `$i` stands at
the position whose value is `args[i-1]`: the text that was built is that of the
statement's layout, in which each value sits in a slot at its own position (the
value of column `i` after `ci = `, the `i`-th value at rank `i` of the `VALUES`
list, the `i`-th clause argument at the `i`-th `?` of the fragment), the literal
texts around the slots contain no `?`, the returned `sql` writes the `i`-th slot
of the layout as `$i`, and the returned `args` are the values of the slots in
that same order; and in a layout the slot with `k` slots before it is written
`$(k+1)` while its value is entry `k` of the slot values. -/
theorem C2_placeholders_match_args
    (sel : SelectStatement) (ins : InsertStatement) (upd : UpdateStatement)
    (del : DeleteStatemnet)
    (hsel_selection : ∀ x ∈ sel.selection, countQ x = 0)
    (hsel_from : countQ sel.from_ = 0)
    (hsel_order : ∀ order ∈ sel.order, ∀ o ∈ order, countQ o = 0)
    (hsel_where : ∀ w ∈ sel.where_, countQ w.fragment = w.args.length)
    (hins_into : countQ ins.into = 0)
    (hins_columns : ∀ c ∈ ins.columns, countQ c = 0)
    (hins_returning : countQ ins.returning = 0)
    (hupd_table : countQ upd.table = 0)
    (hupd_columns : ∀ c ∈ upd.columns, countQ c = 0)
    (hupd_returning : countQ upd.returning = 0)
    (hupd_where : ∀ w ∈ upd.where_, countQ w.fragment = w.args.length)
    (hupd_len : upd.columns.length = upd.values.length)
    (hdel_from : countQ del.from_ = 0)
    (hdel_where : ∀ w ∈ del.where_, countQ w.fragment = w.args.length) :
    (sel.ToSQL = some (dollarNumbered sel.build.1, sel.build.2)
      ∧ countQ sel.build.1 = sel.build.2.length)
    ∧ (ins.ToSQL = some (dollarNumbered ins.build.1, ins.build.2)
      ∧ countQ ins.build.1 = ins.build.2.length)
    ∧ (upd.ToSQL = some (dollarNumbered upd.build.1, upd.build.2)
      ∧ countQ upd.build.1 = upd.build.2.length)
    ∧ (del.ToSQL = some (dollarNumbered del.build.1, del.build.2)
      ∧ countQ del.build.1 = del.build.2.length)
    ∧ (sel.ToSQL = some (numberedText 0 sel.layout, slotValues sel.layout)
      ∧ rawText sel.layout = sel.build.1 ∧ cleanTexts sel.layout
      ∧ slotValues sel.layout = whereArgs sel.where_)
    ∧ (ins.ToSQL = some (numberedText 0 ins.layout, slotValues ins.layout)
      ∧ rawText ins.layout = ins.build.1 ∧ cleanTexts ins.layout
      ∧ slotValues ins.layout = ins.values)
    ∧ (upd.ToSQL = some (numberedText 0 upd.layout, slotValues upd.layout)
      ∧ rawText upd.layout = upd.build.1 ∧ cleanTexts upd.layout
      ∧ slotValues upd.layout = upd.values ++ whereArgs upd.where_)
    ∧ (del.ToSQL = some (numberedText 0 del.layout, slotValues del.layout)
      ∧ rawText del.layout = del.build.1 ∧ cleanTexts del.layout
      ∧ slotValues del.layout = whereArgs del.where_)
    ∧ (∀ (a b : List Piece) (v : Value),
        numberedText 0 (a ++ Piece.slot v :: b)
            = numberedText 0 a ++ ("$" ++ Nat.repr ((slotValues a).length + 1)
                ++ numberedText ((slotValues a).length + 1) b)
          ∧ (slotValues (a ++ Piece.slot v :: b))[(slotValues a).length]? = some v) := by
  obtain ⟨s1, s2, s3⟩ :=
    SelectStatement.select_layout_spec sel hsel_selection hsel_from hsel_order hsel_where
  obtain ⟨i1, i2, i3⟩ :=
    InsertStatement.insert_layout_spec ins hins_into hins_columns hins_returning
  obtain ⟨u1, u2, u3⟩ :=
    UpdateStatement.update_layout_spec upd hupd_table hupd_columns hupd_returning hupd_where
      hupd_len
  obtain ⟨d1, d2, d3⟩ := DeleteStatemnet.delete_layout_spec del hdel_from hdel_where
  refine ⟨⟨SelectStatement.select_ToSQL_eq sel,
      SelectStatement.select_countQ_build sel hsel_selection hsel_from hsel_order hsel_where⟩,
    ⟨InsertStatement.insert_ToSQL_eq ins,
      InsertStatement.insert_countQ_build ins hins_into hins_columns hins_returning⟩,
    ⟨UpdateStatement.update_ToSQL_eq upd,
      UpdateStatement.update_countQ_build upd hupd_table hupd_columns hupd_returning hupd_where
        hupd_len⟩,
    ⟨DeleteStatemnet.delete_ToSQL_eq del,
      DeleteStatemnet.delete_countQ_build del hdel_from hdel_where⟩,
    ⟨?_, s1, s3, s2⟩, ⟨?_, i1, i3, i2⟩, ⟨?_, u1, u3, u2⟩, ⟨?_, d1, d3, d2⟩,
    slot_numbering⟩
  · have hargs : sel.build.2 = whereArgs sel.where_ := by
      obtain ⟨selection, from_, where_, limit, offset, order⟩ := sel
      cases where_ <;> simp [SelectStatement.build, whereArgs]
    rw [SelectStatement.select_ToSQL_eq sel]
    exact rendered_of_layout _ _ _ s1 (s2.trans hargs.symm) s3
  · have hargs : ins.build.2 = ins.values := by
      simp [InsertStatement.build]
    rw [InsertStatement.insert_ToSQL_eq ins]
    exact rendered_of_layout _ _ _ i1 (i2.trans hargs.symm) i3
  · have hargs : upd.build.2 = upd.values ++ whereArgs upd.where_ := by
      obtain ⟨table, columns, values, where_, returning⟩ := upd
      cases where_ <;> simp [UpdateStatement.build, whereArgs]
    rw [UpdateStatement.update_ToSQL_eq upd]
    exact rendered_of_layout _ _ _ u1 (u2.trans hargs.symm) u3
  · have hargs : del.build.2 = whereArgs del.where_ := by
      obtain ⟨from_, where_⟩ := del
      cases where_ <;> simp [DeleteStatemnet.build, whereArgs]
    rw [DeleteStatemnet.delete_ToSQL_eq del]
    exact rendered_of_layout _ _ _ d1 (d2.trans hargs.symm) d3

/-- The four statements of the specification's examples satisfy the hypotheses
of C2; the update has the value of `name` in slot 1 and the argument of the
Where clause in slot 2. -/
theorem C2_placeholders_match_args_witness :
    ((exampleSelect.ToSQL = some (dollarNumbered exampleSelect.build.1, exampleSelect.build.2)
      ∧ countQ exampleSelect.build.1 = exampleSelect.build.2.length)
    ∧ (exampleInsert.ToSQL = some (dollarNumbered exampleInsert.build.1, exampleInsert.build.2)
      ∧ countQ exampleInsert.build.1 = exampleInsert.build.2.length)
    ∧ (exampleUpdate.ToSQL = some (dollarNumbered exampleUpdate.build.1, exampleUpdate.build.2)
      ∧ countQ exampleUpdate.build.1 = exampleUpdate.build.2.length)
    ∧ (exampleDelete.ToSQL = some (dollarNumbered exampleDelete.build.1, exampleDelete.build.2)
      ∧ countQ exampleDelete.build.1 = exampleDelete.build.2.length)
    ∧ (exampleSelect.ToSQL
        = some (numberedText 0 exampleSelect.layout, slotValues exampleSelect.layout)
      ∧ rawText exampleSelect.layout = exampleSelect.build.1 ∧ cleanTexts exampleSelect.layout
      ∧ slotValues exampleSelect.layout = whereArgs exampleSelect.where_)
    ∧ (exampleInsert.ToSQL
        = some (numberedText 0 exampleInsert.layout, slotValues exampleInsert.layout)
      ∧ rawText exampleInsert.layout = exampleInsert.build.1 ∧ cleanTexts exampleInsert.layout
      ∧ slotValues exampleInsert.layout = exampleInsert.values)
    ∧ (exampleUpdate.ToSQL
        = some (numberedText 0 exampleUpdate.layout, slotValues exampleUpdate.layout)
      ∧ rawText exampleUpdate.layout = exampleUpdate.build.1 ∧ cleanTexts exampleUpdate.layout
      ∧ slotValues exampleUpdate.layout = exampleUpdate.values ++ whereArgs exampleUpdate.where_)
    ∧ (exampleDelete.ToSQL
        = some (numberedText 0 exampleDelete.layout, slotValues exampleDelete.layout)
      ∧ rawText exampleDelete.layout = exampleDelete.build.1 ∧ cleanTexts exampleDelete.layout
      ∧ slotValues exampleDelete.layout = whereArgs exampleDelete.where_)
    ∧ (∀ (a b : List Piece) (v : Value),
        numberedText 0 (a ++ Piece.slot v :: b)
            = numberedText 0 a ++ ("$" ++ Nat.repr ((slotValues a).length + 1)
                ++ numberedText ((slotValues a).length + 1) b)
          ∧ (slotValues (a ++ Piece.slot v :: b))[(slotValues a).length]? = some v))
    ∧ exampleUpdate.layout
        = [Piece.text "UPDATE users SET ", Piece.text "name = ", Piece.slot (Value.str "demo"),
            Piece.text " WHERE ", Piece.text "users.id = ", Piece.slot (Value.int 1),
            Piece.text "", Piece.text ""]
    ∧ numberedText 0 exampleUpdate.layout = "UPDATE users SET name = $1 WHERE users.id = $2"
    ∧ slotValues exampleUpdate.layout = [Value.str "demo", Value.int 1]
    ∧ exampleUpdate.ToSQL
        = some ("UPDATE users SET name = $1 WHERE users.id = $2",
            [Value.str "demo", Value.int 1])
    ∧ ((exampleUpdateTwo.Where (some (((NewTable "t").NewStringColumn "c").EQ "x"))).ToSQL
        = some ("UPDATE t SET a = $1,b = $2 WHERE t.c = $3",
            [Value.int 1, Value.int 2, Value.str "x"]))
    ∧ exampleInsert.ToSQL
        = some (numberedText 0 exampleInsert.layout, [Value.str "a", Value.str "a@x.com"])
    ∧ exampleSelect.ToSQL = some (numberedText 0 exampleSelect.layout, [Value.int 5])
    ∧ exampleDelete.ToSQL = some (numberedText 0 exampleDelete.layout, [Value.str "demo"]) :=
  ⟨C2_placeholders_match_args exampleSelect exampleInsert exampleUpdate exampleDelete
    (by decide) (by decide) (by decide) (by decide) (by decide) (by decide) (by decide)
    (by decide) (by decide) (by decide) (by decide) (by decide) (by decide) (by decide),
    by decide, by decide, by decide, by decide, by decide, by decide, by decide, by decide⟩

/-- C3: for every state of a `SelectStatement` builder (the zero value
configured through the setters), `ToSQL` returns `sql = Rebind(DOLLAR, raw)`
where `raw` is `SELECT <selection joined by ", "> FROM <from>` followed in this
order by ` WHERE <fragment>` iff a Where clause is set, ` ORDER BY <order joined
by ",">` iff at least one Order entry exists, ` LIMIT <n>` iff Limit was set and
` OFFSET <n>` iff Offset was set; the returned args are exactly the Where
clause's args, so limit and offset never appear in them.  The specification's
example yields `SELECT a, b FROM t WHERE t.col = $1 LIMIT 10` with args `[5]`. -/
theorem C3_select_rendering (s : SelectStatement) (hs : s.Reachable) :
    (∃ sql, Rebind DOLLAR s.specText = some sql ∧ s.ToSQL = some (sql, whereArgs s.where_))
    ∧ exampleSelect.ToSQL
        = some ("SELECT a, b FROM t WHERE t.col = $1 LIMIT 10", [Value.int 5]) := by
  refine ⟨⟨dollarNumbered s.specText, Rebind_DOLLAR_eq _, ?_⟩, by decide⟩
  rw [SelectStatement.select_ToSQL_eq s,
    SelectStatement.select_build_fst_of_order_ne s hs.order_ne,
    SelectStatement.select_build_snd s]

/-- The example select statement with an Order entry and an Offset added is a
builder state, reached through seven setter calls. -/
theorem C3_select_rendering_witness :
    (∃ sql, Rebind DOLLAR ((exampleSelect.Order "a").Offset 3).specText = some sql
      ∧ ((exampleSelect.Order "a").Offset 3).ToSQL
          = some (sql, whereArgs ((exampleSelect.Order "a").Offset 3).where_))
    ∧ exampleSelect.ToSQL
        = some ("SELECT a, b FROM t WHERE t.col = $1 LIMIT 10", [Value.int 5]) :=
  C3_select_rendering ((exampleSelect.Order "a").Offset 3)
    (.offset _ _ (.order _ _ (.limit _ _ (.where_ _ _ (.from_ _ _ (.select _ _ .fresh))))))

/-- C4: for every `InsertStatement` whose table, column names and returning
list contain no `?`, `ToSQL` returns the text `INSERT INTO <table> (<columns
joined by ",">) VALUES ($1,$2,...,$n) RETURNING <returning>` with one
placeholder per value (`n = len(values)`, whatever the number of columns) and
the values list unchanged as args; with an empty returning list the word
`RETURNING` followed by nothing still ends the text.  The specification's
example yields `INSERT INTO users (name,email) VALUES ($1,$2) RETURNING id`. -/
theorem C4_insert_rendering (s : InsertStatement)
    (hinto : countQ s.into = 0) (hcols : ∀ c ∈ s.columns, countQ c = 0)
    (hret : countQ s.returning = 0) :
    s.ToSQL = some ("INSERT INTO " ++ s.into ++ " (" ++ stringsJoin s.columns "," ++ ") VALUES ("
        ++ stringsJoin (dollars 0 s.values.length) "," ++ ") RETURNING " ++ s.returning, s.values)
    ∧ (dollars 0 s.values.length).length = s.values.length
    ∧ (s.returning = "" →
        s.ToSQL = some ("INSERT INTO " ++ s.into ++ " (" ++ stringsJoin s.columns ","
          ++ ") VALUES (" ++ stringsJoin (dollars 0 s.values.length) "," ++ ") RETURNING ",
          s.values))
    ∧ exampleInsert.ToSQL
        = some ("INSERT INTO users (name,email) VALUES ($1,$2) RETURNING id",
            [Value.str "a", Value.str "a@x.com"]) := by
  have hmain : s.ToSQL = some ("INSERT INTO " ++ s.into ++ " (" ++ stringsJoin s.columns ","
      ++ ") VALUES (" ++ stringsJoin (dollars 0 s.values.length) "," ++ ") RETURNING "
      ++ s.returning, s.values) := by
    rw [InsertStatement.insert_ToSQL_eq s, InsertStatement.insert_numbered_build s hinto hcols hret]
    rfl
  refine ⟨hmain, by simp [dollars], ?_, by decide⟩
  intro hr
  rw [hmain, hr, String.append_empty]

/-- The example insert statement has no `?` in its identifiers. -/
theorem C4_insert_rendering_witness :
    exampleInsert.ToSQL = some ("INSERT INTO " ++ exampleInsert.into ++ " ("
        ++ stringsJoin exampleInsert.columns "," ++ ") VALUES ("
        ++ stringsJoin (dollars 0 exampleInsert.values.length) "," ++ ") RETURNING "
        ++ exampleInsert.returning, exampleInsert.values) :=
  (C4_insert_rendering exampleInsert (by decide) (by decide) (by decide)).1

/-- C5: for every `UpdateStatement`, the args returned by `ToSQL` are the Values
list followed by the Where clause's args (exactly the Values list when no Where
clause is set).  Consequently, when the table and column names contain no `?`
and there are `n` columns and `n` values, the text is `UPDATE <table> SET
c1 = $1,...,cn = $n` followed by the Where fragment with its placeholders
numbered from `$n+1`.  The statement of `TestUpdateStatement` yields
`UPDATE users SET name = $1 WHERE users.id = $2` with args `["demo", 1]`. -/
theorem C5_update_args (s : UpdateStatement) :
    (∃ sql, s.ToSQL = some (sql, s.values ++ whereArgs s.where_))
    ∧ (countQ s.table = 0 → (∀ c ∈ s.columns, countQ c = 0) →
        s.columns.length = s.values.length →
        s.ToSQL = some
          ("UPDATE " ++ s.table ++ " SET " ++ stringsJoin (assignments 0 s.columns) ","
            ++ (match s.where_ with
                | some w => " WHERE " ++ dollarNumberedFrom s.values.length w.fragment
                | none => "")
            ++ dollarNumberedFrom (s.values.length + countQ (whereText s.where_))
                (returningText s.returning),
           s.values ++ whereArgs s.where_)
          ∧ (assignments 0 s.columns).length = s.values.length)
    ∧ exampleUpdate.ToSQL
        = some ("UPDATE users SET name = $1 WHERE users.id = $2",
            [Value.str "demo", Value.int 1]) := by
  refine ⟨⟨dollarNumbered s.build.1, ?_⟩, ?_, by decide⟩
  · rw [UpdateStatement.update_ToSQL_eq s, UpdateStatement.update_build_snd s]
  · intro htable hcols hlen
    refine ⟨?_, by rw [assignments_length, hlen]⟩
    rw [UpdateStatement.update_ToSQL_eq s, UpdateStatement.update_numbered_build s htable hcols,
      UpdateStatement.update_build_snd s, hlen]

/-- The statement of `TestUpdateStatement` has clean identifiers, one column and
one value. -/
theorem C5_update_args_witness :
    exampleUpdate.ToSQL = some
      ("UPDATE " ++ exampleUpdate.table ++ " SET "
        ++ stringsJoin (assignments 0 exampleUpdate.columns) ","
        ++ (match exampleUpdate.where_ with
            | some w => " WHERE " ++ dollarNumberedFrom exampleUpdate.values.length w.fragment
            | none => "")
        ++ dollarNumberedFrom
            (exampleUpdate.values.length + countQ (whereText exampleUpdate.where_))
            (returningText exampleUpdate.returning),
       exampleUpdate.values ++ whereArgs exampleUpdate.where_)
      ∧ (assignments 0 exampleUpdate.columns).length = exampleUpdate.values.length :=
  (C5_update_args exampleUpdate).2.1 (by decide) (by decide) (by decide)

/-- C6, as the specification states it, fails on an update of two columns: the
text that `ToSQL` rebinds is `UPDATE t SET a = ?,b = ?`, with no space after
the comma, not `UPDATE t SET a = ?, b = ?`. -/
theorem C6_update_text_counterexample :
    exampleUpdateTwo.claimedText = "UPDATE t SET a = ?, b = ?"
    ∧ exampleUpdateTwo.build.1 = "UPDATE t SET a = ?,b = ?"
    ∧ exampleUpdateTwo.build.1 ≠ exampleUpdateTwo.claimedText
    ∧ exampleUpdateTwo.ToSQL
        = some ("UPDATE t SET a = $1,b = $2", [Value.int 1, Value.int 2])
    ∧ exampleUpdateTwo.ToSQL
        ≠ (Rebind DOLLAR exampleUpdateTwo.claimedText).map
            (fun sql => (sql, exampleUpdateTwo.build.2)) := by
  decide

/-- C6 (amended): for every `UpdateStatement` with table `t` and columns
`c1..cn`, the text that `ToSQL` rebinds is `UPDATE t SET c1 = ?,c2 = ?,...,cn = ?`
with consecutive assignments separated by a single comma, then ` WHERE
<fragment>` iff a Where clause is set, then ` RETURNING <returning>` iff the
returning list is not empty, in that order; and `ToSQL` returns the rebinding of
that text. -/
theorem C6_update_text (s : UpdateStatement) :
    s.build.1 = "UPDATE " ++ s.table ++ " SET "
        ++ stringsJoin (s.columns.map fun c => c ++ " = ?") ","
        ++ (match s.where_ with
            | some w => " WHERE " ++ w.fragment
            | none => "")
        ++ (if s.returning ≠ "" then " RETURNING " ++ s.returning else "")
    ∧ ∃ sql, Rebind DOLLAR s.build.1 = some sql ∧ s.ToSQL = some (sql, s.build.2) := by
  refine ⟨?_, dollarNumbered s.build.1, Rebind_DOLLAR_eq _, UpdateStatement.update_ToSQL_eq s⟩
  rw [UpdateStatement.update_build_fst s, UpdateStatement.specText, returningText]
  cases s.where_ <;> rfl

/-- C7: for every `DeleteStatemnet` with table `t`, when no Where clause is set
`ToSQL` returns `Rebind(DOLLAR, "DELETE FROM " ++ t)`, a text to which the
builder added no `WHERE`, and an empty args list; when a Where clause `w` is set
it returns `Rebind(DOLLAR, "DELETE FROM " ++ t ++ " WHERE " ++ w.fragment)` and
exactly `w.args`.  The statement of `TestDeleteStatement` yields
`DELETE FROM users WHERE users.name = $1` with args `["demo"]`. -/
theorem C7_delete_rendering (s : DeleteStatemnet) :
    (∃ sql,
      Rebind DOLLAR
          (match s.where_ with
           | none => "DELETE FROM " ++ s.from_
           | some w => "DELETE FROM " ++ s.from_ ++ " WHERE " ++ w.fragment) = some sql
      ∧ s.ToSQL = some (sql,
          match s.where_ with
          | none => []
          | some w => w.args))
    ∧ exampleDelete.ToSQL
        = some ("DELETE FROM users WHERE users.name = $1", [Value.str "demo"]) := by
  refine ⟨⟨_, Rebind_DOLLAR_eq _, ?_⟩, by decide⟩
  rw [DeleteStatemnet.delete_ToSQL_eq s]
  obtain ⟨from_, where_⟩ := s
  cases where_ <;> simp [DeleteStatemnet.build]

/-- C8: for every list of clauses `c1..cn` (`n >= 0`), `And` returns a clause
whose fragment is the `n` groups `(f1)`, ..., `(fn)` joined by ` AND ` and whose
args are `a1 ++ ... ++ an` in clause order, so their number is the sum of the
`len(ai)`; for `n = 0` both the fragment and the args are empty. -/
theorem C8_And_fragment_args (clauses : List Clause) :
    (And clauses).fragment
        = stringsJoin (clauses.map fun c => "(" ++ c.fragment ++ ")") " AND "
    ∧ (clauses.map fun c => "(" ++ c.fragment ++ ")").length = clauses.length
    ∧ (And clauses).args = (clauses.map fun c => c.args).flatten
    ∧ (And clauses).args.length = (clauses.map fun c => c.args.length).sum
    ∧ And [] = { fragment := "", args := [] } := by
  refine ⟨by rw [And_eq], by simp, by rw [And_eq], ?_, by decide⟩
  rw [And_eq]
  simp [List.length_flatten, Function.comp_def]

/-- C9: for every table name `t`, column name `c` and value `v`, the `EQ` method
of the `IntColumn` (`v` an integer) or `StringColumn` (`v` a string) named `c`
of table `t` returns the clause with fragment `t ++ "." ++ c ++ " = ?"` and the
one-element args list `[v]`. -/
theorem C9_EQ_clause (t c : String) (iv : Int) (sv : String) :
    ((NewTable t).NewIntColumn c).EQ iv
        = { fragment := t ++ "." ++ c ++ " = ?", args := [Value.int iv] }
    ∧ ((NewTable t).NewStringColumn c).EQ sv
        = { fragment := t ++ "." ++ c ++ " = ?", args := [Value.str sv] } :=
  ⟨rfl, rfl⟩

/-- C10: "as many `?` in the fragment as args" is an invariant of the clauses
the package constructs: it holds for the result of `IntColumn.EQ` and
`StringColumn.EQ` when the table and column names contain no `?`, it holds for
the result of `Or` on any inputs, and `And` preserves it. -/
theorem C10_clause_invariant (t c : String) (iv : Int) (sv : String)
    (anyClauses clauses : List Clause)
    (ht : countQ t = 0) (hc : countQ c = 0) (hclauses : ∀ x ∈ clauses, x.balanced) :
    (((NewTable t).NewIntColumn c).EQ iv).balanced
    ∧ (((NewTable t).NewStringColumn c).EQ sv).balanced
    ∧ (Or anyClauses).balanced
    ∧ (And clauses).balanced := by
  have e1 : countQ "." = 0 := by decide
  have e2 : countQ " = ?" = 1 := by decide
  have e3 : countQ "or" = 0 := by decide
  refine ⟨?_, ?_, e3, And_balanced clauses hclauses⟩ <;>
    simp [Clause.balanced, IntColumn.EQ, StringColumn.EQ, NewTable, Table.NewIntColumn,
      Table.NewStringColumn, countQ_append, ht, hc, e1, e2]

/-- Clauses on table `users`: two `EQ` clauses, an `Or`, and their `And`. -/
theorem C10_clause_invariant_witness :
    (((NewTable "users").NewIntColumn "id").EQ 1).balanced
    ∧ (((NewTable "users").NewStringColumn "id").EQ "demo").balanced
    ∧ (Or [((NewTable "users").NewIntColumn "id").EQ 1]).balanced
    ∧ (And [((NewTable "users").NewIntColumn "id").EQ 1,
            ((NewTable "users").NewStringColumn "name").EQ "demo", Or []]).balanced :=
  C10_clause_invariant "users" "id" 1 "demo" [((NewTable "users").NewIntColumn "id").EQ 1]
    [((NewTable "users").NewIntColumn "id").EQ 1,
     ((NewTable "users").NewStringColumn "name").EQ "demo", Or []]
    (by decide) (by decide) (by decide)

/-- C11: for every string `q`, `Rebind(QUESTION, q)` and `Rebind(UNKNOWN, q)`
return `q` itself, however many `?` it contains; and for every dialect tag, a
string `q0` without `?` is returned unchanged. -/
theorem C11_Rebind_passthrough (q q0 : String) (tag : Int) (h0 : countQ q0 = 0) :
    Rebind QUESTION q = some q ∧ Rebind UNKNOWN q = some q ∧ Rebind tag q0 = some q0 := by
  refine ⟨by simp [Rebind], by simp [Rebind], ?_⟩
  by_cases hb : tag = QUESTION ∨ tag = UNKNOWN
  · simp [Rebind, hb]
  · rw [Rebind_eq_numberFrom tag q0 hb, numberFrom_of_not_mem _ _ (List.count_eq_zero.mp h0)]

/-- The pass-through tags on a text with two `?`, and the tag `AT` on a text
without `?`. -/
theorem C11_Rebind_passthrough_witness :
    Rebind QUESTION "a = ? AND b = ?" = some "a = ? AND b = ?"
    ∧ Rebind UNKNOWN "a = ? AND b = ?" = some "a = ? AND b = ?"
    ∧ Rebind AT "SELECT 1" = some "SELECT 1" :=
  C11_Rebind_passthrough "a = ? AND b = ?" "SELECT 1" AT (by decide)

/-- C12: for every string `q` with `k` occurrences of `?`, `Rebind(NAMED, q)` is
`q` with the `i`-th `?` replaced by `:arg` and the decimal `i`, and
`Rebind(AT, q)` is `q` with the `i`-th `?` replaced by `@p` and the decimal `i`,
counted from 1 left to right: the pieces of `q` between its `?` are joined with
the numbered placeholders, all other characters unchanged. -/
theorem C12_Rebind_named_at (q : String) :
    Rebind NAMED q = some (String.mk (joinNumbered [':', 'a', 'r', 'g'] 0 (pieces q)))
    ∧ Rebind AT q = some (String.mk (joinNumbered ['@', 'p'] 0 (pieces q)))
    ∧ (pieces q).length = countQ q + 1
    ∧ ['?'].intercalate (pieces q) = q.data
    ∧ Rebind NAMED "a = ? AND b = ?" = some "a = :arg1 AND b = :arg2"
    ∧ Rebind AT "a = ? AND b = ?" = some "a = @p1 AND b = @p2" := by
  refine ⟨?_, ?_, length_splitOn q.data, @List.intercalate_splitOn _ q.data '?' _,
    by decide, by decide⟩
  · rw [Rebind_eq_numberFrom NAMED q (by decide)]
    simp [pieces, joinNumbered_splitOn, bindPrefix, NAMED, DOLLAR]
  · rw [Rebind_eq_numberFrom AT q (by decide)]
    simp [pieces, joinNumbered_splitOn, bindPrefix, AT, DOLLAR, NAMED]

/-- C13, as the specification states it, fails on the statement of
`TestUpdateStatement`, which sets no returning list: the SQL returned is
`UPDATE users SET name = $1 WHERE users.id = $2` and does not end with a
`RETURNING` clause. -/
theorem C13_update_returning_counterexample :
    exampleUpdate.returning = ""
    ∧ exampleUpdate.ToSQL
        = some ("UPDATE users SET name = $1 WHERE users.id = $2",
            [Value.str "demo", Value.int 1])
    ∧ ¬ (" RETURNING ".data <:+ "UPDATE users SET name = $1 WHERE users.id = $2".data)
    ∧ ¬ ("RETURNING".data <:+ "UPDATE users SET name = $1 WHERE users.id = $2".data) := by
  decide

/-- C13 (amended): for every `UpdateStatement` on which no returning list was
set, the text that `ToSQL` rebinds stops after the assignments and the Where
text: the builder adds no `RETURNING`.  `InsertStatement.ToSQL`, on the
contrary, ends its text with the literal ` RETURNING ` followed by nothing. -/
theorem C13_update_returning (upd : UpdateStatement) (ins : InsertStatement)
    (hupd : upd.returning = "") (hins : ins.returning = "") :
    (∃ sql,
      Rebind DOLLAR ("UPDATE " ++ upd.table ++ " SET "
        ++ stringsJoin (upd.columns.map fun c => c ++ " = ?") "," ++ whereText upd.where_)
        = some sql
      ∧ upd.ToSQL = some (sql, upd.values ++ whereArgs upd.where_))
    ∧ (∃ sql,
      Rebind DOLLAR ("INSERT INTO " ++ ins.into ++ " (" ++ stringsJoin ins.columns ","
        ++ ") VALUES (" ++ stringsJoin (ins.values.map fun _ => "?") "," ++ ") RETURNING ")
        = some sql
      ∧ ins.ToSQL = some (sql, ins.values)) := by
  constructor
  · refine ⟨_, Rebind_DOLLAR_eq _, ?_⟩
    rw [UpdateStatement.update_ToSQL_eq upd, UpdateStatement.update_build_fst upd,
      UpdateStatement.update_build_snd upd, UpdateStatement.specText, returningText, hupd]
    simp
  · refine ⟨_, Rebind_DOLLAR_eq _, ?_⟩
    rw [InsertStatement.insert_ToSQL_eq ins, InsertStatement.insert_build_fst ins, hins,
      String.append_empty]
    rfl

/-- The update of `TestUpdateStatement` and an insert without returning list. -/
theorem C13_update_returning_witness :
    (∃ sql,
      Rebind DOLLAR ("UPDATE " ++ exampleUpdate.table ++ " SET "
        ++ stringsJoin (exampleUpdate.columns.map fun c => c ++ " = ?") ","
        ++ whereText exampleUpdate.where_) = some sql
      ∧ exampleUpdate.ToSQL = some (sql, exampleUpdate.values ++ whereArgs exampleUpdate.where_))
    ∧ (∃ sql,
      Rebind DOLLAR ("INSERT INTO " ++ (exampleInsert.Returning "").into ++ " ("
        ++ stringsJoin (exampleInsert.Returning "").columns ","
        ++ ") VALUES (" ++ stringsJoin ((exampleInsert.Returning "").values.map fun _ => "?") ","
        ++ ") RETURNING ") = some sql
      ∧ (exampleInsert.Returning "").ToSQL = some (sql, (exampleInsert.Returning "").values)) :=
  C13_update_returning exampleUpdate (exampleInsert.Returning "") (by decide) (by decide)

/-- C14: for every list of input clauses, the empty list included, `Or` returns
the same clause, with the fixed fragment `or` and no args; the result does not
depend on the inputs. -/
theorem C14_Or_fixed (clauses other : List Clause) :
    Or clauses = { fragment := "or", args := [] }
    ∧ Or [] = { fragment := "or", args := [] }
    ∧ Or clauses = Or other
    ∧ (Or clauses).args = [] :=
  ⟨rfl, rfl, rfl, rfl⟩

/-- C15: for each of the four builders and every builder state, with the
receiver a struct in memory whose slices lie within their backing arrays (and,
for Update, whose clause args are not spare cells of `values`): a call of
`ToSQL` leaves every field of the receiver unchanged, both the struct itself
and the statement value its slices hold, so a second call in a row on the
unmodified builder returns the same sql and the same args as the first; each
call returns what `ToSQL` returns on the statement value, numbered from `$1`. -/
theorem C15_ToSQL_idempotent (h : Heap) (sel : SelectFields) (ins : InsertFields)
    (upd : UpdateFields) (del : DeleteFields)
    (hsel : sel.wellFormed h) (hins : ins.wellFormed h) (hupd : upd.wellFormed h)
    (hdel : del.wellFormed h) :
    ((SelectFields.ToSQL h sel).2.2 = sel
      ∧ sel.statement (SelectFields.ToSQL h sel).2.1 = sel.statement h
      ∧ readResult (secondCall SelectFields.ToSQL h sel) = readResult (SelectFields.ToSQL h sel)
      ∧ readResult (SelectFields.ToSQL h sel) = (sel.statement h).ToSQL
      ∧ readResult (secondCall SelectFields.ToSQL h sel)
          = some (dollarNumberedFrom 0 (sel.statement h).build.1, (sel.statement h).build.2))
    ∧ ((InsertFields.ToSQL h ins).2.2 = ins
      ∧ ins.statement (InsertFields.ToSQL h ins).2.1 = ins.statement h
      ∧ readResult (secondCall InsertFields.ToSQL h ins) = readResult (InsertFields.ToSQL h ins)
      ∧ readResult (InsertFields.ToSQL h ins) = (ins.statement h).ToSQL
      ∧ readResult (secondCall InsertFields.ToSQL h ins)
          = some (dollarNumberedFrom 0 (ins.statement h).build.1, (ins.statement h).build.2))
    ∧ ((UpdateFields.ToSQL h upd).2.2 = upd
      ∧ upd.statement (UpdateFields.ToSQL h upd).2.1 = upd.statement h
      ∧ readResult (secondCall UpdateFields.ToSQL h upd) = readResult (UpdateFields.ToSQL h upd)
      ∧ readResult (UpdateFields.ToSQL h upd) = (upd.statement h).ToSQL
      ∧ readResult (secondCall UpdateFields.ToSQL h upd)
          = some (dollarNumberedFrom 0 (upd.statement h).build.1, (upd.statement h).build.2))
    ∧ ((DeleteFields.ToSQL h del).2.2 = del
      ∧ del.statement (DeleteFields.ToSQL h del).2.1 = del.statement h
      ∧ readResult (secondCall DeleteFields.ToSQL h del) = readResult (DeleteFields.ToSQL h del)
      ∧ readResult (DeleteFields.ToSQL h del) = (del.statement h).ToSQL
      ∧ readResult (secondCall DeleteFields.ToSQL h del)
          = some (dollarNumberedFrom 0 (del.statement h).build.1, (del.statement h).build.2)) := by
  obtain ⟨s1, s2, s3, s4⟩ := SelectFields.select_call_spec h sel hsel
  obtain ⟨i1, i2, i3, i4⟩ := InsertFields.insert_call_spec h ins hins
  obtain ⟨u1, u2, u3, u4⟩ := UpdateFields.update_call_spec h upd hupd
  obtain ⟨d1, d2, d3, d4⟩ := DeleteFields.delete_call_spec h del hdel
  have s5 : readResult (secondCall SelectFields.ToSQL h sel) = (sel.statement h).ToSQL := by
    rw [secondCall, s1, (SelectFields.select_call_spec _ sel s3).2.2.2, s2]
  have i5 : readResult (secondCall InsertFields.ToSQL h ins) = (ins.statement h).ToSQL := by
    rw [secondCall, i1, (InsertFields.insert_call_spec _ ins i3).2.2.2, i2]
  have u5 : readResult (secondCall UpdateFields.ToSQL h upd) = (upd.statement h).ToSQL := by
    rw [secondCall, u1, (UpdateFields.update_call_spec _ upd u3).2.2.2, u2]
  have d5 : readResult (secondCall DeleteFields.ToSQL h del) = (del.statement h).ToSQL := by
    rw [secondCall, d1, (DeleteFields.delete_call_spec _ del d3).2.2.2, d2]
  have fs : (SelectFields.ToSQL h sel).2.2 = sel := by
    unfold SelectFields.ToSQL
    split <;> rfl
  have fi : (InsertFields.ToSQL h ins).2.2 = ins := rfl
  have fu : (UpdateFields.ToSQL h upd).2.2 = upd := by
    unfold UpdateFields.ToSQL
    split <;> rfl
  have fd : (DeleteFields.ToSQL h del).2.2 = del := by
    unfold DeleteFields.ToSQL
    split <;> rfl
  exact ⟨⟨fs, s2, s5.trans s4.symm, s4, s5.trans (SelectStatement.select_ToSQL_eq _)⟩,
    ⟨fi, i2, i5.trans i4.symm, i4, i5.trans (InsertStatement.insert_ToSQL_eq _)⟩,
    ⟨fu, u2, u5.trans u4.symm, u4, u5.trans (UpdateStatement.update_ToSQL_eq _)⟩,
    ⟨fd, d2, d5.trans d4.symm, d4, d5.trans (DeleteStatemnet.delete_ToSQL_eq _)⟩⟩

/-- Four structs over `exampleHeap`; the `values` of the update have spare
capacity, so the first call writes the clause argument into the array of
`values`, after its one element, and the second call writes it there again. -/
theorem C15_ToSQL_idempotent_witness :
    (readResult (secondCall UpdateFields.ToSQL exampleHeap exampleUpdateFields)
        = readResult (UpdateFields.ToSQL exampleHeap exampleUpdateFields)
      ∧ exampleUpdateFields.statement (UpdateFields.ToSQL exampleHeap exampleUpdateFields).2.1
          = exampleUpdateFields.statement exampleHeap)
    ∧ (UpdateFields.ToSQL exampleHeap exampleUpdateFields).2.1
        = ⟨[[Value.str "demo", Value.int 1, Value.int 0], [Value.int 1]]⟩
    ∧ readResult (UpdateFields.ToSQL exampleHeap exampleUpdateFields)
        = some ("UPDATE users SET name = $1 WHERE users.id = $2",
            [Value.str "demo", Value.int 1])
    ∧ readResult (secondCall SelectFields.ToSQL exampleHeap exampleSelectFields)
        = some ("SELECT a, b FROM users WHERE users.id = $1 LIMIT 10", [Value.int 1])
    ∧ readResult (secondCall UpdateFields.ToSQL exampleHeap exampleUpdateFields)
        = some ("UPDATE users SET name = $1 WHERE users.id = $2",
            [Value.str "demo", Value.int 1])
    ∧ (secondCall UpdateFields.ToSQL exampleHeap exampleUpdateFields).2
        = (⟨[[Value.str "demo", Value.int 1, Value.int 0], [Value.int 1]]⟩,
            exampleUpdateFields) :=
  ⟨⟨(C15_ToSQL_idempotent exampleHeap exampleSelectFields exampleInsertFields
        exampleUpdateFields exampleDeleteFields (by decide) (by decide) (by decide)
        (by decide)).2.2.1.2.2.1,
      (C15_ToSQL_idempotent exampleHeap exampleSelectFields exampleInsertFields
        exampleUpdateFields exampleDeleteFields (by decide) (by decide) (by decide)
        (by decide)).2.2.1.2.1⟩,
    by decide, by decide, by decide, by decide, by decide⟩

/-- C16: the core has no fallible operation.  `Rebind` returns a string for
every dialect tag and every input: each iteration of its loop strictly shortens
the remaining query, and any fuel above `len(query)` gives the same output as
the fuel `Rebind` uses.  `ToSQL` of each of the four builders returns a pair for
every builder state, among them the zero value of a select and an update with
two columns and no values. -/
theorem C16_total (bindType : Int) (query : String) (sel : SelectStatement)
    (ins : InsertStatement) (upd : UpdateStatement) (del : DeleteStatemnet) :
    (∃ out, Rebind bindType query = some out)
    ∧ (∀ (q : List Char) (i : Nat), indexQ q = some i → (q.drop (i + 1)).length < q.length)
    ∧ (∀ fuel, query.data.length < fuel →
        rebindLoop bindType fuel [] 0 query.data
          = rebindLoop bindType (query.data.length + 1) [] 0 query.data)
    ∧ (∃ sql args, sel.ToSQL = some (sql, args))
    ∧ (∃ sql args, ins.ToSQL = some (sql, args))
    ∧ (∃ sql args, upd.ToSQL = some (sql, args))
    ∧ (∃ sql args, del.ToSQL = some (sql, args))
    ∧ ({} : SelectStatement).ToSQL = some ("SELECT  FROM ", [])
    ∧ ((({} : UpdateStatement).Columns ["a", "b"]).Where none).ToSQL
        = some ("UPDATE  SET a = $1,b = $2", []) := by
  refine ⟨?_, ?_, ?_, ⟨_, _, SelectStatement.select_ToSQL_eq sel⟩,
    ⟨_, _, InsertStatement.insert_ToSQL_eq ins⟩,
    ⟨_, _, UpdateStatement.update_ToSQL_eq upd⟩,
    ⟨_, _, DeleteStatemnet.delete_ToSQL_eq del⟩, by decide, by decide⟩
  · by_cases hb : bindType = QUESTION ∨ bindType = UNKNOWN
    · exact ⟨query, by simp [Rebind, hb]⟩
    · exact ⟨_, Rebind_eq_numberFrom bindType query hb⟩
  · intro q i h
    obtain ⟨p, r, hq, _, _, hd⟩ := indexQ_eq_some h
    rw [hd, hq]
    simp
    omega
  · intro fuel hfuel
    rw [rebindLoop_eq _ _ _ _ _ hfuel, rebindLoop_eq _ _ _ _ _ (Nat.lt_succ_self _)]

/-- C17: on a `SelectStatement`, two setter calls that target different fields
among Select, From, Where, Order, Limit and Offset commute: in either order they
give the same builder state and so the same `ToSQL` output; and each setter
changes only its own field. -/
theorem C17_setters_commute (s : SelectStatement) (a b : SelectStatement.Setter)
    (hab : a.field ≠ b.field) :
    b.apply (a.apply s) = a.apply (b.apply s)
    ∧ (b.apply (a.apply s)).ToSQL = (a.apply (b.apply s)).ToSQL
    ∧ (∀ x, s.Select x = ⟨x, s.from_, s.where_, s.limit, s.offset, s.order⟩)
    ∧ (∀ x, s.From x = ⟨s.selection, x, s.where_, s.limit, s.offset, s.order⟩)
    ∧ (∀ x, s.Where x = ⟨s.selection, s.from_, x, s.limit, s.offset, s.order⟩)
    ∧ (∀ x, s.Limit x = ⟨s.selection, s.from_, s.where_, some x, s.offset, s.order⟩)
    ∧ (∀ x, s.Offset x = ⟨s.selection, s.from_, s.where_, s.limit, some x, s.order⟩)
    ∧ (∀ x, s.Order x
        = ⟨s.selection, s.from_, s.where_, s.limit, s.offset,
            some (s.orderEntries ++ [x])⟩) := by
  have hcomm : b.apply (a.apply s) = a.apply (b.apply s) := by
    cases a <;> cases b <;> first
      | rfl
      | exact absurd rfl hab
  exact ⟨hcomm, by rw [hcomm], fun _ => rfl, fun _ => rfl, fun _ => rfl, fun _ => rfl,
    fun _ => rfl, fun _ => rfl⟩

/-- An `Order` call and a `Select` call on the example select statement. -/
theorem C17_setters_commute_witness :
    (SelectStatement.Setter.order "a").apply
        ((SelectStatement.Setter.select ["x"]).apply exampleSelect)
      = (SelectStatement.Setter.select ["x"]).apply
          ((SelectStatement.Setter.order "a").apply exampleSelect) :=
  (C17_setters_commute exampleSelect (.select ["x"]) (.order "a") (by decide)).1

/-- C18: on a `SelectStatement`, `Order` accumulates: after `Order(o1)`, ...,
`Order(ok)` (`k >= 1`) on a fresh builder the order list is `[o1..ok]` in call
order, on any builder the new entries follow the old ones, and `ToSQL` renders
` ORDER BY ` followed by the entries joined by commas.  Every other setter
overwrites: called twice with `x` then `y`, the builder holds `y` in the
setter's field, nothing of `x`, and the other fields as they were, which is the
state a single call with `y` gives. -/
theorem C18_order_accumulates (s : SelectStatement) (os : List String) (hos : os ≠ []) :
    (os.foldl SelectStatement.Order {}).order = some os
    ∧ os.foldl SelectStatement.Order s
        = ⟨s.selection, s.from_, s.where_, s.limit, s.offset, some (s.orderEntries ++ os)⟩
    ∧ (∃ sql,
        Rebind DOLLAR
          ("SELECT " ++ stringsJoin s.selection ", " ++ " FROM " ++ s.from_
            ++ whereText s.where_
            ++ (" ORDER BY " ++ stringsJoin (s.orderEntries ++ os) ",")
            ++ (match s.limit with
                | some n => " LIMIT " ++ formatInt n
                | none => "")
            ++ (match s.offset with
                | some n => " OFFSET " ++ formatInt n
                | none => "")) = some sql
        ∧ (os.foldl SelectStatement.Order s).ToSQL = some (sql, whereArgs s.where_))
    ∧ (∀ x y, (s.Select x).Select y
        = ⟨y, s.from_, s.where_, s.limit, s.offset, s.order⟩)
    ∧ (∀ x y, (s.From x).From y
        = ⟨s.selection, y, s.where_, s.limit, s.offset, s.order⟩)
    ∧ (∀ x y, (s.Where x).Where y
        = ⟨s.selection, s.from_, y, s.limit, s.offset, s.order⟩)
    ∧ (∀ x y, (s.Limit x).Limit y
        = ⟨s.selection, s.from_, s.where_, some y, s.offset, s.order⟩)
    ∧ (∀ x y, (s.Offset x).Offset y
        = ⟨s.selection, s.from_, s.where_, s.limit, some y, s.order⟩)
    ∧ (∀ x y, (s.Select x).Select y = s.Select y)
    ∧ (∀ x y, (s.From x).From y = s.From y)
    ∧ (∀ x y, (s.Where x).Where y = s.Where y)
    ∧ (∀ x y, (s.Limit x).Limit y = s.Limit y)
    ∧ (∀ x y, (s.Offset x).Offset y = s.Offset y) := by
  refine ⟨?_, foldl_Order os s hos, ⟨_, Rebind_DOLLAR_eq _, ?_⟩, fun _ _ => rfl,
    fun _ _ => rfl, fun _ _ => rfl, fun _ _ => rfl, fun _ _ => rfl, fun _ _ => rfl,
    fun _ _ => rfl, fun _ _ => rfl, fun _ _ => rfl, fun _ _ => rfl⟩
  · rw [foldl_Order os {} hos]
    simp [SelectStatement.orderEntries]
  · rw [SelectStatement.select_ToSQL_eq, SelectStatement.select_build_fst,
      SelectStatement.select_build_snd, foldl_Order os s hos]

/-- Two `Order` calls on the example select statement, and each overwriting
setter called twice on it. -/
theorem C18_order_accumulates_witness :
    (["a", "b DESC"].foldl SelectStatement.Order {}).order = some ["a", "b DESC"]
    ∧ (["a", "b DESC"].foldl SelectStatement.Order exampleSelect).ToSQL
        = some ("SELECT a, b FROM t WHERE t.col = $1 ORDER BY a,b DESC LIMIT 10",
            [Value.int 5])
    ∧ ((exampleSelect.Select ["x"]).Select ["y", "z"]).ToSQL
        = some ("SELECT y, z FROM t WHERE t.col = $1 LIMIT 10", [Value.int 5])
    ∧ ((exampleSelect.From "u").From "v").ToSQL
        = some ("SELECT a, b FROM v WHERE t.col = $1 LIMIT 10", [Value.int 5])
    ∧ ((exampleSelect.Where none).Where (some (ColumnPostID.EQ 8))).ToSQL
        = some ("SELECT a, b FROM t WHERE posts.id = $1 LIMIT 10", [Value.int 8])
    ∧ ((exampleSelect.Limit 3).Limit 7).ToSQL
        = some ("SELECT a, b FROM t WHERE t.col = $1 LIMIT 7", [Value.int 5])
    ∧ ((exampleSelect.Offset 3).Offset 7).ToSQL
        = some ("SELECT a, b FROM t WHERE t.col = $1 LIMIT 10 OFFSET 7", [Value.int 5]) :=
  ⟨(C18_order_accumulates exampleSelect ["a", "b DESC"] (by decide)).1, by decide, by decide,
    by decide, by decide, by decide, by decide⟩

/-- C19: for every integer `id`, the statement that `PostClient.FindContext`
assembles (the query's Select of `posts.*` from `posts`, the Where clause
`ColumnPostID.EQ(id)`, then the `Limit(1)` of `First`) renders to
`SELECT posts.* FROM posts WHERE posts.id = $1 LIMIT 1` with args `[id]`: one
placeholder, one argument, and the literal row limit 1. -/
theorem C19_find_statement (id : Int) :
    PostClient.findSQL id
        = some ("SELECT posts.* FROM posts WHERE posts.id = $1 LIMIT 1", [Value.int id])
    ∧ countQ "SELECT posts.* FROM posts WHERE posts.id = ? LIMIT 1" = 1 := by
  refine ⟨?_, by decide⟩
  have hb :
      ((PostClient.QueryContext.Where (some (ColumnPostID.EQ id))).Limit 1).selectStatement.build
        = ("SELECT posts.* FROM posts WHERE posts.id = ? LIMIT 1", [Value.int id]) := rfl
  have hr : Rebind DOLLAR "SELECT posts.* FROM posts WHERE posts.id = ? LIMIT 1"
      = some "SELECT posts.* FROM posts WHERE posts.id = $1 LIMIT 1" := by decide
  simp only [PostClient.findSQL, PostQuery.firstSQL, SelectStatement.ToSQL, hb, hr,
    Option.map_some']

/-- C20: for every `PostUpdateInput`, the column list and the value list that
`PostClient.UpdateContext` passes to the `UpdateStatement` have the same length
`n` with `1 <= n <= 3`; the columns are those of `title`, `content` whose input
field is set, in that order, followed always by `updated_at`; and the rendered
statement has `n+1` args and `n+1` placeholders, the last of which, in
`WHERE posts.id = $n+1`, is bound to `input.ID`. -/
theorem C20_update_statement (now : Int) (input : PostUpdateInput) :
    (PostClient.updateColumnsValues now input).1.length
        = (PostClient.updateColumnsValues now input).2.length
    ∧ 1 ≤ (PostClient.updateColumnsValues now input).1.length
    ∧ (PostClient.updateColumnsValues now input).1.length ≤ 3
    ∧ (PostClient.updateColumnsValues now input).1
        = (if input.Title.isSome then ["title"] else [])
          ++ (if input.Content.isSome then ["content"] else []) ++ ["updated_at"]
    ∧ PostClient.updateSQL now input
        = some ("UPDATE posts SET "
            ++ stringsJoin (assignments 0 (PostClient.updateColumnsValues now input).1) ","
            ++ " WHERE posts.id = $"
            ++ Nat.repr ((PostClient.updateColumnsValues now input).1.length + 1)
            ++ " RETURNING id,title,content,created_at,updated_at",
          (PostClient.updateColumnsValues now input).2 ++ [Value.int input.ID])
    ∧ ((PostClient.updateColumnsValues now input).2 ++ [Value.int input.ID]).length
        = (PostClient.updateColumnsValues now input).1.length + 1
    ∧ countQ (PostClient.updateStatement now input).build.1
        = (PostClient.updateColumnsValues now input).1.length + 1
    ∧ ((PostClient.updateColumnsValues now input).2 ++ [Value.int input.ID]).getLast?
        = some (Value.int input.ID) := by
  have hsql := PostClient.updateSQL_eq now input
  have hcols := PostClient.updateColumns_eq now input
  have hclean := PostClient.updateColumns_clean now input
  have hlen : (PostClient.updateColumnsValues now input).1.length
      = (PostClient.updateColumnsValues now input).2.length := by
    obtain ⟨ID, Title, Content, CreatedAt, UpdatedAt⟩ := input
    cases Title <;> cases Content <;> cases UpdatedAt <;> rfl
  have hn : 1 ≤ (PostClient.updateColumnsValues now input).1.length
      ∧ (PostClient.updateColumnsValues now input).1.length ≤ 3 := by
    rw [hcols]
    split <;> split <;> simp
  have hcount : countQ (PostClient.updateStatement now input).build.1
      = (PostClient.updateStatement now input).build.2.length :=
    UpdateStatement.update_countQ_build _ (show countQ "posts" = 0 by decide) hclean
      (show countQ "id,title,content,created_at,updated_at" = 0 by decide)
      (by
        intro w hw
        obtain rfl := Option.some.inj hw
        exact (show countQ ("posts" ++ "." ++ "id" ++ " = ?") = 1 by decide)) hlen
  refine ⟨hlen, hn.1, hn.2, hcols, hsql, by simp [hlen], ?_, by simp⟩
  rw [hcount, UpdateStatement.update_build_snd]
  simp [PostClient.updateStatement, UpdateStatement.Table, UpdateStatement.Columns,
    UpdateStatement.Values, UpdateStatement.Where, UpdateStatement.Returning, whereArgs,
    IntColumn.EQ, hlen]

/-- C21: the Select, Update and Delete builders do not special-case an empty
clause.  Whenever a clause `w` is set, the text `ToSQL` builds has ` WHERE `
followed by `w.fragment`, whatever the fragment.  With the Where set to `And()`
of zero clauses the fragment and the clause args are empty: the text has
` WHERE ` followed by nothing, no clause args are returned, and for Delete the
text is `"DELETE FROM " ++ table ++ " WHERE "`, which is also the string
returned when the table name has no `?`. -/
theorem C21_empty_clause_where (sel : SelectStatement) (upd : UpdateStatement)
    (del : DeleteStatemnet) :
    And [] = { fragment := "", args := [] }
    ∧ (∀ w : Clause, (sel.Where (some w)).build
        = ("SELECT " ++ stringsJoin sel.selection ", " ++ " FROM " ++ sel.from_
            ++ (" WHERE " ++ w.fragment)
            ++ (match sel.order with
                | some order => " ORDER BY " ++ stringsJoin order ","
                | none => "")
            ++ (match sel.limit with
                | some n => " LIMIT " ++ formatInt n
                | none => "")
            ++ (match sel.offset with
                | some n => " OFFSET " ++ formatInt n
                | none => ""), w.args))
    ∧ (∀ w : Clause, (upd.Where (some w)).build
        = ("UPDATE " ++ upd.table ++ " SET "
            ++ stringsJoin (upd.columns.map fun c => c ++ " = ?") ","
            ++ (" WHERE " ++ w.fragment) ++ returningText upd.returning,
           upd.values ++ w.args))
    ∧ (∀ w : Clause, (del.Where (some w)).build
        = ("DELETE FROM " ++ del.from_ ++ (" WHERE " ++ w.fragment), w.args))
    ∧ (∃ sql, Rebind DOLLAR (sel.Where (some (And []))).build.1 = some sql
        ∧ (sel.Where (some (And []))).ToSQL = some (sql, []))
    ∧ (∃ sql, Rebind DOLLAR (upd.Where (some (And []))).build.1 = some sql
        ∧ (upd.Where (some (And []))).ToSQL = some (sql, upd.values))
    ∧ (del.Where (some (And []))).build = ("DELETE FROM " ++ del.from_ ++ " WHERE ", [])
    ∧ (∃ sql, Rebind DOLLAR ("DELETE FROM " ++ del.from_ ++ " WHERE ") = some sql
        ∧ (del.Where (some (And []))).ToSQL = some (sql, []))
    ∧ (countQ del.from_ = 0 →
        (del.Where (some (And []))).ToSQL
          = some ("DELETE FROM " ++ del.from_ ++ " WHERE ", []))
    ∧ (exampleDelete.Where (some (And []))).ToSQL = some ("DELETE FROM users WHERE ", [])
    ∧ (exampleSelect.Where (some (And []))).ToSQL
        = some ("SELECT a, b FROM t WHERE  LIMIT 10", [])
    ∧ (exampleUpdateTwo.Where (some (And []))).ToSQL
        = some ("UPDATE t SET a = $1,b = $2 WHERE ", [Value.int 1, Value.int 2]) := by
  have hsel : ∀ w : Clause, (sel.Where (some w)).build
      = ("SELECT " ++ stringsJoin sel.selection ", " ++ " FROM " ++ sel.from_
          ++ (" WHERE " ++ w.fragment)
          ++ (match sel.order with
              | some order => " ORDER BY " ++ stringsJoin order ","
              | none => "")
          ++ (match sel.limit with
              | some n => " LIMIT " ++ formatInt n
              | none => "")
          ++ (match sel.offset with
              | some n => " OFFSET " ++ formatInt n
              | none => ""), w.args) := by
    intro w
    apply Prod.ext
    · exact SelectStatement.select_build_fst (sel.Where (some w))
    · exact SelectStatement.select_build_snd (sel.Where (some w))
  have hupd : ∀ w : Clause, (upd.Where (some w)).build
      = ("UPDATE " ++ upd.table ++ " SET "
          ++ stringsJoin (upd.columns.map fun c => c ++ " = ?") ","
          ++ (" WHERE " ++ w.fragment) ++ returningText upd.returning,
         upd.values ++ w.args) := by
    intro w
    apply Prod.ext
    · exact UpdateStatement.update_build_fst (upd.Where (some w))
    · exact UpdateStatement.update_build_snd (upd.Where (some w))
  have hdel : ∀ w : Clause, (del.Where (some w)).build
      = ("DELETE FROM " ++ del.from_ ++ (" WHERE " ++ w.fragment), w.args) :=
    fun w => DeleteStatemnet.delete_build_eq (del.Where (some w))
  have hand : And [] = { fragment := "", args := [] } := by decide
  have hdel0 : (del.Where (some (And []))).build
      = ("DELETE FROM " ++ del.from_ ++ " WHERE ", []) := by
    rw [hdel, hand, String.append_empty]
  have hdelSQL : (del.Where (some (And []))).ToSQL
      = some (dollarNumbered ("DELETE FROM " ++ del.from_ ++ " WHERE "), []) := by
    rw [DeleteStatemnet.delete_ToSQL_eq, hdel0]
  refine ⟨hand, hsel, hupd, hdel, ⟨_, Rebind_DOLLAR_eq _, ?_⟩,
    ⟨_, Rebind_DOLLAR_eq _, ?_⟩, hdel0, ⟨_, Rebind_DOLLAR_eq _, hdelSQL⟩, ?_,
    by decide, by decide, by decide⟩
  · rw [SelectStatement.select_ToSQL_eq, hsel, hand]
  · rw [UpdateStatement.update_ToSQL_eq, hupd, hand, List.append_nil]
  · intro hfrom
    have e1 : countQ "DELETE FROM " = 0 := by decide
    have e2 : countQ " WHERE " = 0 := by decide
    rw [hdelSQL, dollarNumbered, dollarNumberedFrom_of_countQ_zero]
    rw [countQ_append, countQ_append, e1, e2, hfrom]

/-- A delete on table `users`, whose name has no `?`, with the empty `And()`. -/
theorem C21_empty_clause_where_witness :
    (exampleDelete.Where (some (And []))).ToSQL
      = some ("DELETE FROM " ++ exampleDelete.from_ ++ " WHERE ", []) :=
  (C21_empty_clause_where exampleSelect exampleUpdate exampleDelete).2.2.2.2.2.2.2.2.1
    (by decide)

end db
